import Mathlib

/-!
# backend-payment-go: the vault client, the payment gateway and the health probe

A shallow embedding of `internal/vaultera/client.go`, `internal/handlers/payment.go`
and `internal/handlers/health.go`.

* Go strings are byte sequences (`GoString`); an `error` is the text of its `Error()`.
* Of `net/url`, `Values.Set`, `Values.Encode`, `QueryEscape`, `QueryUnescape`, `ParseQuery`
  and the control-byte check that opens `url.Parse` are embedded as the library defines them;
  of fiber, `Ctx.Query` with its `defaultString` and `Ctx.Params`.
* Everything else that the code calls outside this repository (the rest of `url.Parse`,
  `json.Marshal`, `http.NewRequestWithContext`, the HTTP round trip, `json.Unmarshal`, the
  inbound `BodyParser`, `strconv.Quote`) is a field of `Env`; the theorems hold for every
  `Env`.
* Of `encoding/json`, what the struct tags of `client.go` decide is embedded on JSON values:
  the members written for a `CaptureRequest` (`CaptureRequest.toJSON`), with the replacement
  of invalid UTF-8 by U+FFFD that the string encoder makes (`jsonString`), and the decoding
  of a value into the session token wrapper (`decodeSessionTokenWrapper`). The step from text
  to value stays a parameter (`JSONText`); `parsePlainJSON` reads the plain ASCII texts of
  the test suite.
* The URL of a request is kept as `url.Parse` divides the text of `baseURL + path`: what
  comes before the first `?` and `#` (`Request.location`), the query, which `do` overwrites
  (`Request.rawQuery`), and what comes after the first `#` (`Request.fragment`).
* Stateful code is embedded by explicit state passing: each operation returns its result
  together with the list of requests it handed to `c.httpClient.Do`, in order. One vault call
  is one such request.
-/

namespace Vaultera

/-! ## Go strings -/

/-- One byte. -/
abbrev Byte := Fin 256

/-- A Go `string`: an immutable sequence of bytes. -/
abbrev GoString := List Byte

/-- The byte string of an ASCII literal. -/
def lit (s : String) : GoString := s.data.map (fun c => Fin.ofNat c.toNat)

/-- Decimal digits of a natural number, most significant first, as `%d` prints them. -/
def natDigits (n : Nat) : GoString := (Nat.toDigits 10 n).map (fun c => Fin.ofNat c.toNat)

/-- The verb `%d` of `fmt` applied to an `int`. -/
def fmtInt : Int → GoString
  | Int.ofNat n => natDigits n
  | Int.negSucc n => lit "-" ++ natDigits (n + 1)

/-! ## net/url: escaping -/

/-- The test `'a' <= c && c <= 'z' || 'A' <= c && c <= 'Z' || '0' <= c && c <= '9'`. -/
def isAlnum (c : Byte) : Bool :=
  (97 ≤ c.val && c.val ≤ 122) || (65 ≤ c.val && c.val ≤ 90) || (48 ≤ c.val && c.val ≤ 57)

/-- The function `shouldEscape(c, encodeQueryComponent)` of `net/url`: alphanumerics and
`-`, `_`, `.`, `~` stay, the reserved characters and everything else are escaped. -/
def shouldEscape (c : Byte) : Bool :=
  if isAlnum c then false
  else if c = 45 || c = 95 || c = 46 || c = 126 then false
  else true

/-- The table `upperhex = "0123456789ABCDEF"` indexed by a nibble. -/
def upperhex (n : Nat) : Byte :=
  if n < 10 then Fin.ofNat (48 + n) else Fin.ofNat (55 + n)

/-- The function `escape(s, encodeQueryComponent)`, that is `url.QueryEscape`: a space becomes
`+`, a byte to escape becomes `%XX`, every other byte is copied. -/
def QueryEscape : GoString → GoString
  | [] => []
  | c :: cs =>
    if c = 32 then (43 : Byte) :: QueryEscape cs
    else if shouldEscape c then
      (37 : Byte) :: upperhex (c.val >>> 4) :: upperhex (c.val &&& 15) :: QueryEscape cs
    else c :: QueryEscape cs

/-- The function `ishex` of `net/url`. -/
def ishex (c : Byte) : Bool :=
  (48 ≤ c.val && c.val ≤ 57) || (97 ≤ c.val && c.val ≤ 102) || (65 ≤ c.val && c.val ≤ 70)

/-- The function `unhex` of `net/url`. -/
def unhex (c : Byte) : Nat :=
  if 48 ≤ c.val && c.val ≤ 57 then c.val - 48
  else if 97 ≤ c.val && c.val ≤ 102 then c.val - 97 + 10
  else if 65 ≤ c.val && c.val ≤ 70 then c.val - 65 + 10
  else 0

/-- The function `unescape(s, encodeQueryComponent)`, that is `url.QueryUnescape`: `none` is
the `EscapeError` for a `%` not followed by two hex digits; otherwise `%XX` is decoded to the
byte `unhex(X)<<4 | unhex(X)`, `+` to a space, and every other byte is copied. -/
def QueryUnescape : GoString → Option GoString
  | [] => some []
  | c :: cs =>
    if c = 37 then
      match cs with
      | h1 :: h2 :: rest =>
        if ishex h1 && ishex h2 then
          (QueryUnescape rest).map
            (fun t => (Fin.ofNat (((unhex h1 <<< 4) % 256) ||| unhex h2) : Byte) :: t)
        else none
      | _ => none
    else if c = 43 then (QueryUnescape cs).map (fun t => (32 : Byte) :: t)
    else (QueryUnescape cs).map (fun t => c :: t)

/-! ## net/url: Values -/

/-- The type `url.Values`, a `map[string][]string`, as an association list; the entry of a
key is the first pair that carries it. -/
abbrev Values := List (GoString × List GoString)

/-- The map read `v[key]` (the empty slice when the key is absent). -/
def Values.lookup : Values → GoString → List GoString
  | [], _ => []
  | (k, vs) :: rest, key => if k = key then vs else Values.lookup rest key

/-- The method `Values.Set`: `v[key] = []string{value}`, replacing any existing values. -/
def Values.Set (v : Values) (key value : GoString) : Values :=
  (key, [value]) :: v.filter (fun p => decide (p.1 ≠ key))

/-- The keys of the map, each once (`for k := range v`). -/
def Values.keys : Values → List GoString
  | [] => []
  | (k, _) :: rest => k :: (Values.keys rest).filter (fun x => decide (x ≠ k))

/-- Byte-wise lexicographic `<` on strings, the order of `slices.Sort` on `[]string`. -/
def strLess : GoString → GoString → Bool
  | _, [] => false
  | [], _ :: _ => true
  | a :: as, b :: bs =>
    if a.val < b.val then true else if b.val < a.val then false else strLess as bs

/-- Insertion of a key into a sorted list. -/
def insertKey (k : GoString) : List GoString → List GoString
  | [] => [k]
  | x :: xs => if strLess x k then x :: insertKey k xs else k :: x :: xs

/-- The call `slices.Sort(keys)`. -/
def sortKeys : List GoString → List GoString
  | [] => []
  | k :: ks => insertKey k (sortKeys ks)

/-- The inner loop of `Values.Encode` over the values of one key, on the buffer `buf`. -/
def encodeValues (keyEscaped : GoString) : GoString → List GoString → GoString
  | buf, [] => buf
  | buf, x :: xs =>
    encodeValues keyEscaped
      ((if buf.length > 0 then buf ++ [(38 : Byte)] else buf) ++ keyEscaped ++ [(61 : Byte)]
        ++ QueryEscape x) xs

/-- The outer loop of `Values.Encode` over the sorted keys. -/
def encodeKeys (v : Values) : GoString → List GoString → GoString
  | buf, [] => buf
  | buf, k :: ks => encodeKeys v (encodeValues (QueryEscape k) buf (Values.lookup v k)) ks

/-- The method `Values.Encode`: the "URL encoded" form `bar=baz&foo=quux`, sorted by key. -/
def Values.Encode (v : Values) : GoString :=
  if v.length = 0 then [] else encodeKeys v [] (sortKeys (Values.keys v))

/-- The statement `m[key] = append(m[key], value)` of `parseQuery`. -/
def Values.add : Values → GoString → GoString → Values
  | [], key, value => [(key, [value])]
  | (k, vs) :: rest, key, value =>
    if k = key then (k, vs ++ [value]) :: rest else (k, vs) :: Values.add rest key value

/-- The function `strings.Cut(s, sep)` for a one-byte separator: the text before the first
separator and the text after it (all of `s` and the empty string when there is none). -/
def cut (sep : Byte) : GoString → GoString × GoString
  | [] => ([], [])
  | c :: cs => if c = sep then ([], cs) else ((c :: (cut sep cs).1), (cut sep cs).2)

/-- One turn of the loop of `parseQuery` on the segment `key` cut off at `&`: a segment with a
semicolon, an empty one, or one whose key or value does not unescape is skipped. -/
def parseSegment (m : Values) (key : GoString) : Values :=
  if key.contains (59 : Byte) then m
  else if key = [] then m
  else
    match QueryUnescape (cut 61 key).1 with
    | none => m
    | some k =>
      match QueryUnescape (cut 61 key).2 with
      | none => m
      | some value => Values.add m k value

/-- The loop `for query != ""` of `parseQuery`, by recursion over the bytes of the query:
`seg` is the segment read so far since the last `&`. -/
def parseQueryLoop : Values → GoString → GoString → Values
  | m, seg, [] => parseSegment m seg
  | m, seg, c :: cs =>
    if c = 38 then parseQueryLoop (parseSegment m seg) [] cs
    else parseQueryLoop m (seg ++ [c]) cs

/-- The function `url.ParseQuery` (the map it fills; `URL.Query()` drops the error). -/
def ParseQuery (query : GoString) : Values := parseQueryLoop [] [] query

/-! ## internal/vaultera/client.go: types -/

/-- The struct `Client` (the `*http.Client` is the field `roundTrip` of `Env`). -/
structure Client where
  apiKey : GoString
  baseURL : GoString
deriving DecidableEq

/-- The constructor `NewClient`. -/
def NewClient (apiKey baseURL : GoString) : Client := { apiKey := apiKey, baseURL := baseURL }

/-- The struct `Card`: raw card data used for direct tokenization. -/
structure Card where
  CardNumber : GoString
  CardType : GoString
  CardholderName : GoString
  ServiceCode : GoString
  ExpirationMonth : GoString
  ExpirationYear : GoString
deriving DecidableEq

/-- The struct `CardResponse`, returned after tokenizing or fetching a card. -/
structure CardResponse where
  CardToken : GoString
  CardNumberMask : GoString
  CardType : GoString
  CardholderName : GoString
  ExpirationMonth : GoString
  ExpirationYear : GoString
deriving DecidableEq

/-- A `map[string]string` of headers. -/
abbrev Headers := List (GoString × GoString)

/-- The struct `CaptureRequest`. -/
structure CaptureRequest where
  Method : GoString
  URL : GoString
  Headers : Headers
  Body : GoString
  Profile : GoString
deriving DecidableEq

/-- The struct `CaptureResponse`; `Body` is a `json.RawMessage`. -/
structure CaptureResponse where
  StatusCode : Int
  Headers : Headers
  Body : GoString
deriving DecidableEq

/-- The struct `SendRequest`. -/
structure SendRequest where
  Method : GoString
  URL : GoString
  Headers : Headers
  Body : GoString
deriving DecidableEq

/-- The struct `SendResponse`; `Body` is a `json.RawMessage`. -/
structure SendResponse where
  StatusCode : Int
  Headers : Headers
  Body : GoString
deriving DecidableEq

/-- The struct `SessionTokenRequest`, `{session_token: {scope}}`. -/
structure SessionTokenRequest where
  Scope : GoString
deriving DecidableEq

/-- The struct `SessionTokenResponse`. -/
structure SessionTokenResponse where
  Token : GoString
  Scope : GoString
deriving DecidableEq

/-- The value passed to `do` as `body any`, before `json.Marshal`. -/
inductive Payload where
  /-- The map `map[string]any{"card": card}` of `CreateCard`. -/
  | card (card : Card)
  /-- The `SendRequest` of `SendCard`. -/
  | send (req : SendRequest)
  /-- The `CaptureRequest` of `Capture`. -/
  | capture (req : CaptureRequest)
  /-- The `SessionTokenRequest` of `CreateSessionToken`. -/
  | sessionToken (req : SessionTokenRequest)
deriving DecidableEq

/-- The `*http.Request` that `do` builds with `http.NewRequestWithContext(ctx, method,
u.String(), reqBody)`. The URL `u` is given by the three parts of the text it comes from:
`url.Parse` cuts the fragment off at the first `#` and the query at the first `?` of what is
left, and reads the scheme, the host and the path from the text before them; `do` then
overwrites the query. -/
structure Request where
  method : GoString
  /-- The text of `c.baseURL + path` before its first `?` and its first `#`: the scheme, the
  host and the path of `u` as they are written, escapes included. -/
  location : GoString
  /-- The field `u.RawQuery`, as `do` has set it. -/
  rawQuery : GoString
  /-- The text of `c.baseURL + path` after its first `#`: the fragment of `u` as it is
  written. -/
  fragment : GoString
  /-- The value whose JSON is the body. -/
  body : Option Payload
  /-- The header fields set on the request. -/
  header : List (GoString × GoString)
deriving DecidableEq

/-- What `c.httpClient.Do(req)` followed by `io.ReadAll(resp.Body)` produces. -/
inductive Outcome where
  /-- The call `httpClient.Do` returned an error (DNS, connect, TLS, timeout, cancellation). -/
  | doError (msg : GoString)
  /-- The response arrived with this status and reading its body failed. -/
  | readError (status : Int) (msg : GoString)
  /-- The response arrived with this status and these body bytes. -/
  | response (status : Int) (data : GoString)
deriving DecidableEq

/-- The inbound request as the handlers read it from `*fiber.Ctx`. -/
structure Ctx where
  /-- The decoded query arguments (`c.fasthttp.QueryArgs()`), in order. -/
  queryArgs : List (GoString × GoString)
  /-- The parameters of the matched route, by name. -/
  routeParams : List (GoString × GoString)
  /-- The header fields of the request. -/
  header : List (GoString × GoString)
  /-- The body of the request. -/
  body : GoString
deriving DecidableEq

/-- The struct `tokenizeRequest` of the handlers. -/
structure tokenizeRequest where
  Card : Card
deriving DecidableEq

/-- The struct `chargeRequest` of the handlers. -/
structure chargeRequest where
  CardToken : GoString
  Method : GoString
  URL : GoString
  Headers : Headers
  Body : GoString
deriving DecidableEq

/-- The libraries and the network, as far as the code calls them. An error is the text of
its `Error()`; `none` in an `Option GoString` result means the call returned a nil error. -/
structure Env where
  /-- The verb `%q` (`strconv.Quote`). -/
  quote : GoString → GoString
  /-- The function `url.Parse` on a string without control bytes before its fragment. -/
  urlParseRest : GoString → Option GoString
  /-- The function `json.Marshal` on a request body. -/
  marshal : Payload → Option GoString
  /-- The function `http.NewRequestWithContext`. -/
  newRequest : Request → Option GoString
  /-- The call `c.httpClient.Do(req)` followed by `io.ReadAll(resp.Body)`. -/
  roundTrip : Request → Outcome
  /-- The call `json.Unmarshal(data, &wrapper)` of `CreateCard` and `GetCard`. -/
  unmarshalCard : GoString → Except GoString CardResponse
  /-- The call `json.Unmarshal(data, &resp)` of `SendCard`. -/
  unmarshalSend : GoString → Except GoString SendResponse
  /-- The call `json.Unmarshal(data, &resp)` of `Capture`. -/
  unmarshalCapture : GoString → Except GoString CaptureResponse
  /-- The call `json.Unmarshal(data, &wrapper)` of `CreateSessionToken`. -/
  unmarshalSessionToken : GoString → Except GoString SessionTokenResponse
  /-- The call `c.BodyParser(&req)` of `Tokenize`. -/
  bodyParserTokenize : Ctx → Except GoString tokenizeRequest
  /-- The call `c.BodyParser(&req)` of `Charge`. -/
  bodyParserCharge : Ctx → Except GoString chargeRequest

/-! ## internal/vaultera/client.go: the helper `do` -/

/-- The function `stringContainsCTLByte` of `net/url`: `b < ' ' || b == 0x7f`. -/
def stringContainsCTLByte (s : GoString) : Bool :=
  s.any (fun b => decide (b.val < 32) || decide (b = 127))

/-- The function `url.Parse`: the fragment is cut off at the first `#`, and a control byte in
what is left is rejected before anything else is looked at; the rest of the parser is
`Env.urlParseRest`. The result is the error, if any. -/
def urlParse (env : Env) (rawURL : GoString) : Option GoString :=
  if stringContainsCTLByte (cut 35 rawURL).1 then
    some (lit "parse " ++ env.quote (cut 35 rawURL).1
      ++ lit ": net/url: invalid control character in URL")
  else env.urlParseRest rawURL

/-- The three results `([]byte, int, error)` of `do`. -/
structure DoResult where
  data : GoString
  status : Int
  err : Option GoString
deriving DecidableEq

/-- The method `Client.do`; the second component is the list of requests handed to
`c.httpClient.Do`. The query that `url.Parse` has cut off the endpoint at its first `?` is
lost when `u.RawQuery` is overwritten, and `u.String()` always writes the new one, which is
never empty. -/
def Client.do (env : Env) (c : Client) (method path : GoString) (queryParams : Option Values)
    (body : Option Payload) : DoResult × List Request :=
  let endpoint := c.baseURL ++ path
  let queryParams : Values :=
    Values.Set
      (match queryParams with
        | none => []
        | some q => q) (lit "api_key") c.apiKey
  match urlParse env endpoint with
  | some err =>
    ({ data := [], status := 0,
       err := some (lit "vaultera: invalid URL " ++ env.quote endpoint ++ lit ": " ++ err) }, [])
  | none =>
    let rawQuery := Values.Encode queryParams
    match (match body with
      | none => none
      | some b => env.marshal b) with
    | some err =>
      ({ data := [], status := 0, err := some (lit "vaultera: marshal request body: " ++ err) },
        [])
    | none =>
      let built : Request :=
        { method := method, location := (cut 63 (cut 35 endpoint).1).1, rawQuery := rawQuery,
          fragment := (cut 35 endpoint).2, body := body, header := [] }
      match env.newRequest built with
      | some err =>
        ({ data := [], status := 0, err := some (lit "vaultera: build request: " ++ err) }, [])
      | none =>
        let req : Request :=
          { built with
            header := [(lit "Content-Type", lit "application/json"),
                       (lit "Accept", lit "application/json")] }
        match env.roundTrip req with
        | Outcome.doError err =>
          ({ data := [], status := 0, err := some (lit "vaultera: http do: " ++ err) }, [req])
        | Outcome.readError status err =>
          ({ data := [], status := status,
             err := some (lit "vaultera: read response: " ++ err) }, [req])
        | Outcome.response status data =>
          if status ≥ 400 then
            ({ data := [], status := status,
               err := some (lit "vaultera: API error " ++ fmtInt status ++ lit ": " ++ data) },
              [req])
          else ({ data := data, status := status, err := none }, [req])

/-! ## internal/vaultera/client.go: the operations -/

/-- The method `Client.CreateCard`: `POST /cards`. -/
def Client.CreateCard (env : Env) (c : Client) (card : Card) :
    Except GoString CardResponse × List Request :=
  let r := c.do env (lit "POST") (lit "/cards") none (some (Payload.card card))
  match r.1.err with
  | some err => (Except.error err, r.2)
  | none =>
    match env.unmarshalCard r.1.data with
    | Except.error err => (Except.error (lit "vaultera: decode card response: " ++ err), r.2)
    | Except.ok card => (Except.ok card, r.2)

/-- The method `Client.GetCard`: `GET /cards/{card_token}`. -/
def Client.GetCard (env : Env) (c : Client) (cardToken : GoString) :
    Except GoString CardResponse × List Request :=
  let r := c.do env (lit "GET") (lit "/cards/" ++ cardToken) none none
  match r.1.err with
  | some err => (Except.error err, r.2)
  | none =>
    match env.unmarshalCard r.1.data with
    | Except.error err => (Except.error (lit "vaultera: decode card response: " ++ err), r.2)
    | Except.ok card => (Except.ok card, r.2)

/-- The method `Client.DeleteCard`: `DELETE /cards/{card_token}`; the result is the error. -/
def Client.DeleteCard (env : Env) (c : Client) (cardToken : GoString) :
    Option GoString × List Request :=
  let r := c.do env (lit "DELETE") (lit "/cards/" ++ cardToken) none none
  (r.1.err, r.2)

/-- The method `Client.SendCard`: `POST /cards/{card_token}/send`. -/
def Client.SendCard (env : Env) (c : Client) (cardToken : GoString) (req : SendRequest) :
    Except GoString SendResponse × List Request :=
  let r := c.do env (lit "POST") (lit "/cards/" ++ cardToken ++ lit "/send") none
    (some (Payload.send req))
  match r.1.err with
  | some err => (Except.error err, r.2)
  | none =>
    match env.unmarshalSend r.1.data with
    | Except.error err => (Except.error (lit "vaultera: decode send response: " ++ err), r.2)
    | Except.ok resp => (Except.ok resp, r.2)

/-- The query parameters that `Capture` builds from the request. -/
def captureParams (req : CaptureRequest) : Values :=
  let params : Values := []
  let params := if req.Method ≠ [] then Values.Set params (lit "method") req.Method else params
  let params := if req.URL ≠ [] then Values.Set params (lit "url") req.URL else params
  if req.Profile ≠ [] then Values.Set params (lit "profile") req.Profile else params

/-- The method `Client.Capture`: `POST /capture`. -/
def Client.Capture (env : Env) (c : Client) (req : CaptureRequest) :
    Except GoString CaptureResponse × List Request :=
  let r := c.do env (lit "POST") (lit "/capture") (some (captureParams req))
    (some (Payload.capture req))
  match r.1.err with
  | some err => (Except.error err, r.2)
  | none =>
    match env.unmarshalCapture r.1.data with
    | Except.error err =>
      (Except.error (lit "vaultera: decode capture response: " ++ err), r.2)
    | Except.ok resp => (Except.ok resp, r.2)

/-- The method `Client.CaptureFormURL`. -/
def Client.CaptureFormURL (c : Client) (sessionToken : GoString) : GoString :=
  let params : Values := Values.Set [] (lit "session_token") sessionToken
  c.baseURL ++ lit "/capture_form?" ++ Values.Encode params

/-- The method `Client.CreateSessionToken`: `POST /session_tokens`. -/
def Client.CreateSessionToken (env : Env) (c : Client) (scope : GoString) :
    Except GoString SessionTokenResponse × List Request :=
  let req : SessionTokenRequest := { Scope := scope }
  let r := c.do env (lit "POST") (lit "/session_tokens") none (some (Payload.sessionToken req))
  match r.1.err with
  | some err => (Except.error err, r.2)
  | none =>
    match env.unmarshalSessionToken r.1.data with
    | Except.error err =>
      (Except.error (lit "vaultera: decode session_token response: " ++ err), r.2)
    | Except.ok token => (Except.ok token, r.2)

/-! ## fiber: what the handlers use of `*fiber.Ctx` -/

/-- The method `Args.Peek` of fasthttp: the value of the first argument with the given key,
and nil (the empty string) when there is none. -/
def peek : List (GoString × GoString) → GoString → GoString
  | [], _ => []
  | (k, v) :: rest, key => if k = key then v else peek rest key

/-- The helper `defaultString` of fiber: the default is returned when the value is empty,
`if len(value) == 0 && len(defaultValue) > 0 { return defaultValue[0] }`. -/
def defaultString (value : GoString) (defaultValue : List GoString) : GoString :=
  match defaultValue with
  | d :: _ => if value.length = 0 then d else value
  | [] => value

/-- The method `Ctx.Query(key, defaultValue...)` of fiber:
`defaultString(QueryArgs().Peek(key), defaultValue)`. -/
def Ctx.Query (c : Ctx) (key : GoString) (defaultValue : List GoString) : GoString :=
  defaultString (peek c.queryArgs key) defaultValue

/-- The method `Ctx.Params(key)` of fiber on the parameters of the matched route. -/
def Ctx.Params (c : Ctx) (key : GoString) : GoString := peek c.routeParams key

/-- The value a handler serialises into the response. -/
inductive ResponseBody where
  /-- The map `fiber.Map{"error": msg}`. -/
  | error (msg : GoString)
  /-- The call `c.JSON(token)`. -/
  | sessionToken (token : SessionTokenResponse)
  /-- The call `c.JSON(card)`. -/
  | card (card : CardResponse)
  /-- The call `c.JSON(resp)`. -/
  | send (resp : SendResponse)
  /-- The call `c.SendStatus(status)`: no value is serialised. -/
  | empty
deriving DecidableEq

/-- The response of a handler: the status code and the serialised value. -/
structure Response where
  status : Nat
  body : ResponseBody
deriving DecidableEq

/-! ## internal/handlers/payment.go -/

/-- The struct `PaymentHandler`. -/
structure PaymentHandler where
  vaultera : Client
deriving DecidableEq

/-- The constructor `NewPaymentHandler`. -/
def NewPaymentHandler (v : Client) : PaymentHandler := { vaultera := v }

/-- The handler `GetSession`: `GET /v1/session`. -/
def PaymentHandler.GetSession (env : Env) (h : PaymentHandler) (c : Ctx) :
    Response × List Request :=
  let scope := c.Query (lit "scope") [lit "card"]
  let r := h.vaultera.CreateSessionToken env scope
  match r.1 with
  | Except.error err => ({ status := 502, body := ResponseBody.error err }, r.2)
  | Except.ok token => ({ status := 200, body := ResponseBody.sessionToken token }, r.2)

/-- The handler `Tokenize`: `POST /v1/payments/tokenize`. -/
def PaymentHandler.Tokenize (env : Env) (h : PaymentHandler) (c : Ctx) :
    Response × List Request :=
  match env.bodyParserTokenize c with
  | Except.error _ =>
    ({ status := 400, body := ResponseBody.error (lit "invalid request body") }, [])
  | Except.ok req =>
    let r := h.vaultera.CreateCard env req.Card
    match r.1 with
    | Except.error err => ({ status := 502, body := ResponseBody.error err }, r.2)
    | Except.ok card => ({ status := 201, body := ResponseBody.card card }, r.2)

/-- The handler `GetCard`: `GET /v1/payments/cards/:token`. -/
def PaymentHandler.GetCard (env : Env) (h : PaymentHandler) (c : Ctx) :
    Response × List Request :=
  let token := c.Params (lit "token")
  let r := h.vaultera.GetCard env token
  match r.1 with
  | Except.error err => ({ status := 502, body := ResponseBody.error err }, r.2)
  | Except.ok card => ({ status := 200, body := ResponseBody.card card }, r.2)

/-- The handler `DeleteCard`: `DELETE /v1/payments/cards/:token`. -/
def PaymentHandler.DeleteCard (env : Env) (h : PaymentHandler) (c : Ctx) :
    Response × List Request :=
  let token := c.Params (lit "token")
  let r := h.vaultera.DeleteCard env token
  match r.1 with
  | some err => ({ status := 502, body := ResponseBody.error err }, r.2)
  | none => ({ status := 204, body := ResponseBody.empty }, r.2)

/-- The handler `Charge`: `POST /v1/payments/charge`. -/
def PaymentHandler.Charge (env : Env) (h : PaymentHandler) (c : Ctx) :
    Response × List Request :=
  match env.bodyParserCharge c with
  | Except.error _ =>
    ({ status := 400, body := ResponseBody.error (lit "invalid request body") }, [])
  | Except.ok req =>
    if req.CardToken = [] ∨ req.URL = [] then
      ({ status := 400, body := ResponseBody.error (lit "card_token and url are required") }, [])
    else
      let sendReq : SendRequest :=
        { Method := req.Method, URL := req.URL, Headers := req.Headers, Body := req.Body }
      let r := h.vaultera.SendCard env req.CardToken sendReq
      match r.1 with
      | Except.error err => ({ status := 502, body := ResponseBody.error err }, r.2)
      | Except.ok resp => ({ status := 200, body := ResponseBody.send resp }, r.2)

/-! ## internal/handlers/health.go -/

/-- A `fiber.Map` whose values are strings, as an association list. -/
abbrev FiberMap := List (GoString × GoString)

/-- The map write `m[key] = value`. -/
def FiberMap.set : FiberMap → GoString → GoString → FiberMap
  | [], key, value => [(key, value)]
  | (k, v) :: rest, key, value =>
    if k = key then (k, value) :: rest else (k, v) :: FiberMap.set rest key value

/-- The map read `m[key]`; `none` is the nil interface of an absent key. -/
def FiberMap.get : FiberMap → GoString → Option GoString
  | [], _ => none
  | (k, v) :: rest, key => if k = key then some v else FiberMap.get rest key

/-- A `*pgxpool.Pool` or `*redis.Client` as the health handler sees it: `none` is the nil
pointer, `some r` a configured dependency whose `Ping` returns the error `r` (`none`: nil). -/
abbrev Dependency := Option (Option GoString)

/-- One of the three blocks `if dep != nil { if err := dep.Ping(ctx); err != nil ... }`. -/
def probe (status : FiberMap) (name : GoString) (dep : Dependency) : FiberMap :=
  match dep with
  | none => status
  | some (some _) =>
    FiberMap.set (FiberMap.set status name (lit "unhealthy")) (lit "status") (lit "degraded")
  | some none => FiberMap.set status name (lit "healthy")

/-- The handler returned by `HealthHandler(db, ariDB, redisClient)`: the status code and the
map that is serialised. -/
def HealthHandler (db ariDB redisClient : Dependency) : Nat × FiberMap :=
  let status : FiberMap := [(lit "status", lit "healthy")]
  let status := probe status (lit "database") db
  let status := probe status (lit "ari_database") ariDB
  let status := probe status (lit "redis") redisClient
  let httpStatus := if FiberMap.get status (lit "status") = some (lit "degraded") then 503 else 200
  (httpStatus, status)

/-! ## Notions used to state and prove the properties -/

/-- The bytes that structure a query string: `&`, `=`, `;` and `#`. -/
def isDelim (b : Byte) : Bool := b = 38 || b = 61 || b = 59 || b = 35

/-- The text `key=value` that `Values.Encode` writes for one pair. -/
def pairText (p : GoString × GoString) : GoString :=
  QueryEscape p.1 ++ [(61 : Byte)] ++ QueryEscape p.2

/-- The loop of `Values.Encode` run over a list of key/value pairs. -/
def encodePairs : GoString → List (GoString × GoString) → GoString
  | buf, [] => buf
  | buf, p :: ps =>
    encodePairs ((if buf.length > 0 then buf ++ [(38 : Byte)] else buf) ++ QueryEscape p.1
      ++ [(61 : Byte)] ++ QueryEscape p.2) ps

/-- The key/value pairs of a map in the order of a list of keys. -/
def flatPairs (v : Values) : List GoString → List (GoString × GoString)
  | [] => []
  | k :: ks => (Values.lookup v k).map (fun x => (k, x)) ++ flatPairs v ks

/-- The text `&key=value&key=value...` of a list of pairs. -/
def tailText : List (GoString × GoString) → GoString
  | [] => []
  | p :: ps => (38 : Byte) :: (pairText p ++ tailText ps)

/-- The map after `m[key] = append(m[key], value)` for each pair in turn. -/
def addAll : Values → List (GoString × GoString) → Values
  | m, [] => m
  | m, p :: ps => addAll (Values.add m p.1 p.2) ps

/-- The request that `do` builds with `http.NewRequestWithContext`, before the header fields
are set. -/
def Client.built (c : Client) (method path : GoString) (queryParams : Option Values)
    (body : Option Payload) : Request :=
  { method := method
    location := (cut 63 (cut 35 (c.baseURL ++ path)).1).1
    rawQuery := Values.Encode (Values.Set (queryParams.getD []) (lit "api_key") c.apiKey)
    fragment := (cut 35 (c.baseURL ++ path)).2
    body := body
    header := [] }

/-- The request that `do` hands to `c.httpClient.Do`. -/
def Client.request (c : Client) (method path : GoString) (queryParams : Option Values)
    (body : Option Payload) : Request :=
  { c.built method path queryParams body with
    header := [(lit "Content-Type", lit "application/json"),
               (lit "Accept", lit "application/json")] }

/-- The call `do` gets as far as `c.httpClient.Do`: the URL parses, the body is marshalled and
the request is built. -/
def Client.reaches (env : Env) (c : Client) (method path : GoString)
    (queryParams : Option Values) (body : Option Payload) : Prop :=
  urlParse env (c.baseURL ++ path) = none ∧ (∀ b, body = some b → env.marshal b = none) ∧
    env.newRequest (c.built method path queryParams body) = none

/-- The results of `do` once the round trip has produced `o`. -/
def classify : Outcome → DoResult
  | Outcome.doError err =>
    { data := [], status := 0, err := some (lit "vaultera: http do: " ++ err) }
  | Outcome.readError status err =>
    { data := [], status := status, err := some (lit "vaultera: read response: " ++ err) }
  | Outcome.response status data =>
    if status ≥ 400 then
      { data := [], status := status,
        err := some (lit "vaultera: API error " ++ fmtInt status ++ lit ": " ++ data) }
    else { data := data, status := status, err := none }

/-- An environment in the manner of the `httptest` servers of the test suite: every URL
parses, every request is built, the server answers every request with `outcome`, and no body
decodes. -/
def testEnv (outcome : Outcome) : Env :=
  { quote := fun s => [(34 : Byte)] ++ s ++ [(34 : Byte)]
    urlParseRest := fun _ => none
    marshal := fun _ => none
    newRequest := fun _ => none
    roundTrip := fun _ => outcome
    unmarshalCard := fun _ => Except.error (lit "unexpected end of JSON input")
    unmarshalSend := fun _ => Except.error (lit "unexpected end of JSON input")
    unmarshalCapture := fun _ => Except.error (lit "unexpected end of JSON input")
    unmarshalSessionToken := fun _ => Except.error (lit "unexpected end of JSON input")
    bodyParserTokenize := fun _ => Except.error (lit "Unprocessable Entity")
    bodyParserCharge := fun _ => Except.error (lit "Unprocessable Entity") }

/-- The client of `client_test.go`. -/
def testClient : Client := NewClient (lit "test-api-key") (lit "https://pci.vaultera.co/api/v1")

/-- An inbound request without arguments, parameters, header fields or body. -/
def emptyCtx : Ctx := { queryArgs := [], routeParams := [], header := [], body := [] }

/-- The environment of `TestCharge_MissingFields`: the body `{"card_token":""}` decodes into
a `chargeRequest` whose fields are all empty. -/
def missingFieldsEnv : Env :=
  { testEnv (Outcome.response 200 []) with
    bodyParserCharge := fun _ =>
      Except.ok { CardToken := [], Method := [], URL := [], Headers := [], Body := [] } }

/-- Query parameters in which the caller has put two values for `api_key` itself. -/
def staleParams : Values :=
  [(lit "api_key", [lit "stale", lit "other"]), (lit "url", [lit "https://a.example/b?c=d&e"])]

/-- A dependency is configured and its `Ping` returns an error. -/
def Dependency.failed : Dependency → Bool
  | some (some _) => true
  | _ => false

/-- The entry a dependency is due in the health report: none when it is not configured,
`healthy` when its `Ping` succeeds, `unhealthy` when it fails. -/
def Dependency.entry : Dependency → Option GoString
  | none => none
  | some none => some (lit "healthy")
  | some (some _) => some (lit "unhealthy")

/-- The keys due in the health report: `status`, then one key per configured dependency. -/
def reportKeys (db ariDB redisClient : Dependency) : List GoString :=
  [lit "status"] ++ (if db.isSome then [lit "database"] else [])
    ++ (if ariDB.isSome then [lit "ari_database"] else [])
    ++ (if redisClient.isSome then [lit "redis"] else [])

/-- The environment of `TestGetSession`: the vault answers 200 and the body decodes into the
session token `st_test` of scope `card`. -/
def sessionEnv : Env :=
  { testEnv (Outcome.response 200 (lit "session")) with
    unmarshalSessionToken := fun _ => Except.ok { Token := lit "st_test", Scope := lit "card" } }

/-- The inbound request `GET /v1/session?scope=`: the parameter is there and it is empty. -/
def emptyScopeCtx : Ctx :=
  { queryArgs := [(lit "scope", [])], routeParams := [], header := [], body := [] }

/-- The inbound request `GET /v1/session?scope=show_card`. -/
def showCardCtx : Ctx :=
  { queryArgs := [(lit "scope", lit "show_card")], routeParams := [], header := [], body := [] }

/-- The masked card of `TestTokenize`. -/
def maskedCard : CardResponse :=
  { CardToken := lit "tok_new", CardNumberMask := lit "411111******1111", CardType := lit "visa",
    CardholderName := [], ExpirationMonth := lit "12", ExpirationYear := lit "2030" }

/-- The raw card of `TestTokenize`. -/
def rawCard : Card :=
  { CardNumber := lit "4111111111111111", CardType := [], CardholderName := [],
    ServiceCode := [], ExpirationMonth := lit "12", ExpirationYear := lit "2030" }

/-- The environment of `TestTokenize`: the inbound body decodes into `rawCard`, the vault
answers 200 and its body decodes into `maskedCard`. -/
def tokenizeEnv : Env :=
  { testEnv (Outcome.response 200 (lit "card")) with
    bodyParserTokenize := fun _ => Except.ok { Card := rawCard }
    unmarshalCard := fun _ => Except.ok maskedCard }

/-- The environment of a vault that cannot be reached: `httpClient.Do` fails. -/
def downEnv : Env :=
  { testEnv (Outcome.doError (lit "connection refused")) with
    bodyParserTokenize := fun _ => Except.ok { Card := rawCard } }

/-! ## encoding/json: values, and the struct tags of client.go -/

/-- A JSON value. A `string` holds the Go string it stands for, a `number` its literal. -/
inductive JSON where
  | null
  | bool (b : Bool)
  | number (literal : GoString)
  | string (s : GoString)
  | array (items : List JSON)
  | object (members : List (GoString × JSON))

/-- The first of a list of members with the given name. -/
def memberOf : List (GoString × JSON) → GoString → Option JSON
  | [], _ => none
  | (k, v) :: rest, name => if k = name then some v else memberOf rest name

/-- The first member of an object with the given name; `none` when there is none or the value
is not an object. -/
def JSON.member : JSON → GoString → Option JSON
  | JSON.object members, name => memberOf members name
  | _, _ => none

/-- The keys of a `map[string]string`, each once. -/
def headerKeys : Headers → List GoString
  | [] => []
  | (k, _) :: rest => k :: (headerKeys rest).filter (fun x => decide (x ≠ k))

/-- A continuation byte of UTF-8, `0x80` to `0xBF`. -/
def isCont (b : Byte) : Bool := 128 ≤ b.val && b.val ≤ 191

/-- The width that `utf8.DecodeRuneInString` returns for a valid encoding at the head of the
string, and 0 where it returns `(RuneError, 1)` for an invalid or incomplete one. The bounds
on the second byte are those of the table `acceptRanges` of `unicode/utf8`. -/
def runeWidth : GoString → Nat
  | [] => 0
  | b0 :: rest =>
    if b0.val < 128 then 1
    else if b0.val < 194 then 0
    else if b0.val < 224 then
      match rest with
      | b1 :: _ => if isCont b1 then 2 else 0
      | [] => 0
    else if b0.val < 240 then
      match rest with
      | b1 :: b2 :: _ =>
        if decide ((if b0.val = 224 then 160 else 128) ≤ b1.val)
            && decide (b1.val ≤ (if b0.val = 237 then 159 else 191)) && isCont b2 then 3
        else 0
      | _ => 0
    else if b0.val < 245 then
      match rest with
      | b1 :: b2 :: b3 :: _ =>
        if decide ((if b0.val = 240 then 144 else 128) ≤ b1.val)
            && decide (b1.val ≤ (if b0.val = 244 then 143 else 191)) && isCont b2
            && isCont b3 then 4
        else 0
      | _ => 0
    else 0

/-- The loop of the string encoder of `encoding/json` as to the value it writes: a byte at
which `utf8.DecodeRuneInString` returns `(RuneError, 1)` is written as U+FFFD (the bytes
`EF BF BD`), every rune with a valid encoding is written as it is. `skip` counts the bytes
of the current rune that are still to be copied. -/
def coerceUTF8 : Nat → GoString → GoString
  | _, [] => []
  | skip + 1, b :: rest => b :: coerceUTF8 skip rest
  | 0, b :: rest =>
    match runeWidth (b :: rest) with
    | 0 => (239 : Byte) :: (191 : Byte) :: (189 : Byte) :: coerceUTF8 0 rest
    | w + 1 => b :: coerceUTF8 w rest

/-- The string that the JSON string written by `json.Marshal` for a Go string stands for:
the Go string with its invalid UTF-8 replaced by U+FFFD. -/
def jsonString (s : GoString) : GoString := coerceUTF8 0 s

/-- The loop of `utf8.ValidString`; `skip` counts the bytes of the current rune that are
still to be passed over. -/
def validUTF8 : Nat → GoString → Bool
  | _, [] => true
  | skip + 1, _ :: rest => validUTF8 skip rest
  | 0, b :: rest =>
    match runeWidth (b :: rest) with
    | 0 => false
    | w + 1 => validUTF8 w rest

/-- The function `utf8.ValidString`. -/
def ValidString (s : GoString) : Bool := validUTF8 0 s

/-- The value `json.Marshal` writes for a `map[string]string`: an object whose members are
sorted by key. -/
def headersJSON (h : Headers) : JSON :=
  JSON.object
    ((sortKeys (headerKeys h)).map (fun k => (jsonString k, JSON.string (jsonString (peek h k)))))

/-- The value `json.Marshal` writes for a `CaptureRequest`, by its struct tags: `method` and
`url` are always written, `headers`, `body` and `profile` carry `omitempty` and are written
only when they are not empty. -/
def CaptureRequest.toJSON (r : CaptureRequest) : JSON :=
  JSON.object
    ([(lit "method", JSON.string (jsonString r.Method)),
      (lit "url", JSON.string (jsonString r.URL))]
      ++ (if r.Headers.length = 0 then [] else [(lit "headers", headersJSON r.Headers)])
      ++ (if r.Body.length = 0 then [] else [(lit "body", JSON.string (jsonString r.Body))])
      ++ (if r.Profile.length = 0 then []
          else [(lit "profile", JSON.string (jsonString r.Profile))]))

/-- The field of a struct that an object member is decoded into: the field whose JSON name is
the key exactly, and failing that the first field whose name matches under `fold`, the
case-insensitive comparison of `encoding/json`; `none` when the member is skipped. -/
def fieldOf (fold : GoString → GoString → Bool) (names : List GoString) (key : GoString) :
    Option GoString :=
  if names.contains key then some key else names.find? (fun n => fold n key)

/-- Decoding a JSON value into a Go `string` that holds `cur`: a string is stored, `null`
leaves the field as it is, anything else is an `UnmarshalTypeError` (`none`). -/
def decodeString (v : JSON) (cur : GoString) : Option GoString :=
  match v with
  | JSON.string s => some s
  | JSON.null => some cur
  | _ => none

/-- Decoding the members of an object, in order, into a `SessionTokenResponse`, whose fields
are tagged `token` and `scope`. -/
def decodeSessionTokenMembers (fold : GoString → GoString → Bool) :
    List (GoString × JSON) → SessionTokenResponse → Option SessionTokenResponse
  | [], cur => some cur
  | (k, v) :: rest, cur =>
    match fieldOf fold [lit "token", lit "scope"] k with
    | none => decodeSessionTokenMembers fold rest cur
    | some name =>
      if name = lit "token" then
        match decodeString v cur.Token with
        | none => none
        | some s => decodeSessionTokenMembers fold rest { cur with Token := s }
      else
        match decodeString v cur.Scope with
        | none => none
        | some s => decodeSessionTokenMembers fold rest { cur with Scope := s }

/-- Decoding a JSON value into a `SessionTokenResponse` that holds `cur`. -/
def decodeSessionTokenResponse (fold : GoString → GoString → Bool) (v : JSON)
    (cur : SessionTokenResponse) : Option SessionTokenResponse :=
  match v with
  | JSON.object members => decodeSessionTokenMembers fold members cur
  | JSON.null => some cur
  | _ => none

/-- Decoding the members of an object, in order, into the wrapper
`struct { SessionToken SessionTokenResponse }` of `CreateSessionToken`, whose field is tagged
`session_token`. -/
def decodeWrapperMembers (fold : GoString → GoString → Bool) :
    List (GoString × JSON) → SessionTokenResponse → Option SessionTokenResponse
  | [], cur => some cur
  | (k, v) :: rest, cur =>
    match fieldOf fold [lit "session_token"] k with
    | none => decodeWrapperMembers fold rest cur
    | some _ =>
      match decodeSessionTokenResponse fold v cur with
      | none => none
      | some next => decodeWrapperMembers fold rest next

/-- The call `json.Unmarshal(data, &wrapper)` of `CreateSessionToken` on the value that `data`
is the text of: the field `wrapper.SessionToken` when it returns a nil error, starting from
the zero value. -/
def decodeSessionTokenWrapper (fold : GoString → GoString → Bool) (v : JSON) :
    Option SessionTokenResponse :=
  match v with
  | JSON.object members => decodeWrapperMembers fold members { Token := [], Scope := [] }
  | JSON.null => some { Token := [], Scope := [] }
  | _ => none

/-- The part of `encoding/json` that stays outside the embedding: the value of a JSON text
(`none` for a text that is not valid JSON) and the case-insensitive comparison of names. -/
structure JSONText where
  parse : GoString → Option JSON
  fold : GoString → GoString → Bool

/-- The decoder of session tokens of `env` is `json.Unmarshal`: on a text with value `v` that
decodes into `token`, it returns `token` and a nil error. -/
def Env.decodesSessionTokens (env : Env) (lib : JSONText) : Prop :=
  ∀ data v token, lib.parse data = some v →
    decodeSessionTokenWrapper lib.fold v = some token →
    env.unmarshalSessionToken data = Except.ok token

/-- The JSON value `{"session_token":{"token":t,"scope":s}}`. -/
def sessionTokenJSON (t s : GoString) : JSON :=
  JSON.object [(lit "session_token",
    JSON.object [(lit "token", JSON.string t), (lit "scope", JSON.string s)])]

/-- The white space of JSON: space, tab, line feed, carriage return. -/
def isSpace (c : Byte) : Bool := c = 32 || c = 9 || c = 10 || c = 13

/-- The text after its leading white space. -/
def skipSpace : GoString → GoString
  | [] => []
  | c :: cs => if isSpace c then skipSpace cs else c :: cs

/-- The rest of a JSON string after its opening quote, when it is written in printable ASCII
without escapes: the string and the text after the closing quote. -/
def parsePlainString : GoString → Option (GoString × GoString)
  | [] => none
  | c :: cs =>
    if c = 34 then some ([], cs)
    else if c = 92 || decide (c.val < 32) || decide (126 < c.val) then none
    else (parsePlainString cs).map (fun p => (c :: p.1, p.2))

mutual

/-- One JSON value at the head of the text, and the text after it. -/
def parseValue : Nat → GoString → Option (JSON × GoString)
  | 0, _ => none
  | fuel + 1, s =>
    match skipSpace s with
    | [] => none
    | c :: rest =>
      if c = 34 then (parsePlainString rest).map (fun p => (JSON.string p.1, p.2))
      else if c = 123 then
        match skipSpace rest with
        | [] => none
        | d :: rest1 =>
          if d = 125 then some (JSON.object [], rest1)
          else (parseMembers fuel rest).map (fun p => (JSON.object p.1, p.2))
      else if c = 91 then
        match skipSpace rest with
        | [] => none
        | d :: rest1 =>
          if d = 93 then some (JSON.array [], rest1)
          else (parseItems fuel rest).map (fun p => (JSON.array p.1, p.2))
      else if (c :: rest).take 4 = lit "null" then some (JSON.null, rest.drop 3)
      else if (c :: rest).take 4 = lit "true" then some (JSON.bool true, rest.drop 3)
      else if (c :: rest).take 5 = lit "false" then some (JSON.bool false, rest.drop 4)
      else none

/-- The members of an object after its opening brace, up to the closing brace. -/
def parseMembers : Nat → GoString → Option (List (GoString × JSON) × GoString)
  | 0, _ => none
  | fuel + 1, s =>
    match skipSpace s with
    | [] => none
    | c :: rest =>
      if c = 34 then
        match parsePlainString rest with
        | none => none
        | some (k, rest1) =>
          match skipSpace rest1 with
          | [] => none
          | d :: rest2 =>
            if d = 58 then
              match parseValue fuel rest2 with
              | none => none
              | some (v, rest3) =>
                match skipSpace rest3 with
                | [] => none
                | e :: rest4 =>
                  if e = 44 then (parseMembers fuel rest4).map (fun p => ((k, v) :: p.1, p.2))
                  else if e = 125 then some ([(k, v)], rest4)
                  else none
            else none
      else none

/-- The items of an array after its opening bracket, up to the closing bracket. -/
def parseItems : Nat → GoString → Option (List JSON × GoString)
  | 0, _ => none
  | fuel + 1, s =>
    match parseValue fuel s with
    | none => none
    | some (v, rest) =>
      match skipSpace rest with
      | [] => none
      | e :: rest1 =>
        if e = 44 then (parseItems fuel rest1).map (fun p => (v :: p.1, p.2))
        else if e = 93 then some ([v], rest1)
        else none

end

/-- The value of a JSON text written in printable ASCII, without escapes and without
numbers; `none` for any other text. -/
def parsePlainJSON (s : GoString) : Option JSON :=
  match parseValue (s.length + 1) s with
  | none => none
  | some (v, rest) => if skipSpace rest = [] then some v else none

/-- An ASCII letter in lower case. -/
def asciiLower (c : Byte) : Byte := if 65 ≤ c.val && c.val ≤ 90 then c + 32 else c

/-- Equality of two ASCII names without regard to case. -/
def asciiFold (a b : GoString) : Bool := a.map asciiLower == b.map asciiLower

/-- The JSON texts of the test suite: `parsePlainJSON` and `asciiFold`. -/
def plainJSON : JSONText := { parse := parsePlainJSON, fold := asciiFold }

/-- An environment as `testEnv` whose decoder of session tokens is `json.Unmarshal` on plain
JSON texts. -/
def jsonEnv (outcome : Outcome) : Env :=
  { testEnv outcome with
    unmarshalSessionToken := fun data =>
      match parsePlainJSON data with
      | none => Except.error (lit "invalid character")
      | some v =>
        match decodeSessionTokenWrapper asciiFold v with
        | none => Except.error (lit "json: cannot unmarshal")
        | some token => Except.ok token }

/-- The body `{"session_token":{"token":"st_test","scope":"card"}}` of `TestGetSession`. -/
def sessionBody : GoString :=
  lit "\x7b\"session_token\":\x7b\"token\":\"st_test\",\"scope\":\"card\"\x7d\x7d"

/-- A capture request whose method is the empty string. -/
def emptyMethodCapture : CaptureRequest :=
  { Method := [], URL := lit "https://third.example/card", Headers := [], Body := [],
    Profile := [] }

/-- A capture request with a method, a URL and a profile. -/
def fullCapture : CaptureRequest :=
  { Method := lit "POST", URL := lit "https://third.example/card?a=1&b=2", Headers := [],
    Body := [], Profile := lit "default" }

/-- The charge request of `TestSendCard`, whose body carries the placeholder
`%CARD_NUMBER%`. -/
def placeholderCharge : chargeRequest :=
  { CardToken := lit "tok_abc123", Method := lit "POST",
    URL := lit "https://api.stripe.com/v1/charges", Headers := [],
    Body := lit "\x7b\"amount\":1000,\"currency\":\"usd\",\"source\":\"%CARD_NUMBER%\"\x7d" }

/-- The environment of `TestSendCard`: the inbound body decodes into `placeholderCharge`, the
vault answers 200 and its body decodes into a response of status code 200. -/
def chargeEnv : Env :=
  { testEnv (Outcome.response 200 (lit "send")) with
    bodyParserCharge := fun _ => Except.ok placeholderCharge
    unmarshalSend := fun _ => Except.ok { StatusCode := 200, Headers := [], Body := [] } }

/-- A vault that rejects the card with status 422 and repeats the submitted number in the
body of its answer. -/
def echoEnv : Env :=
  { testEnv (Outcome.response 422 rawCard.CardNumber) with
    bodyParserTokenize := fun _ => Except.ok { Card := rawCard } }

/-- A vault that answers 200 with a card whose `card_number_mask` is the submitted number,
not masked. -/
def unmaskedEnv : Env :=
  { testEnv (Outcome.response 200 (lit "card")) with
    bodyParserTokenize := fun _ => Except.ok { Card := rawCard }
    unmarshalCard := fun _ => Except.ok { maskedCard with CardNumberMask := rawCard.CardNumber } }

/-- A second raw card. -/
def otherCard : Card :=
  { CardNumber := lit "5555555555554444", CardType := lit "mastercard",
    CardholderName := lit "JANE ROE", ServiceCode := [], ExpirationMonth := lit "01",
    ExpirationYear := lit "2031" }

/-- An inbound request with a body. -/
def otherCtx : Ctx := { queryArgs := [], routeParams := [], header := [], body := lit "other" }

/-- The environment of `TestTokenize` for two inbound requests: the empty one decodes into
`rawCard`, any other into `otherCard`; the vault answers both alike. -/
def twoCardsEnv : Env :=
  { testEnv (Outcome.response 200 (lit "card")) with
    bodyParserTokenize := fun c =>
      if c.body = [] then Except.ok { Card := rawCard } else Except.ok { Card := otherCard }
    unmarshalCard := fun _ => Except.ok maskedCard }

/-- The response of `Tokenize` once the vault call has produced the outcome `o`. -/
def tokenizeOutcome (env : Env) (o : Outcome) : Response :=
  match (classify o).err with
  | some e => { status := 502, body := ResponseBody.error e }
  | none =>
    match env.unmarshalCard (classify o).data with
    | Except.error e =>
      { status := 502, body := ResponseBody.error (lit "vaultera: decode card response: " ++ e) }
    | Except.ok card => { status := 201, body := ResponseBody.card card }

/-! ## Lemmas on escaping -/

set_option maxRecDepth 100000 in
theorem hex_roundtrip : ∀ c : Byte,
    ishex (upperhex (c.val >>> 4)) = true ∧ ishex (upperhex (c.val &&& 15)) = true ∧
    (Fin.ofNat (((unhex (upperhex (c.val >>> 4)) <<< 4) % 256)
      ||| unhex (upperhex (c.val &&& 15))) : Byte) = c := by
  decide

set_option maxRecDepth 100000 in
theorem kept_byte : ∀ c : Byte, shouldEscape c = false →
    c ≠ 37 ∧ c ≠ 43 ∧ c ≠ 38 ∧ c ≠ 61 ∧ c ≠ 59 ∧ c ≠ 35 ∧ c ≠ 32 := by
  decide

set_option maxRecDepth 100000 in
theorem upperhex_plain : ∀ c : Byte,
    (upperhex (c.val >>> 4)) ≠ 38 ∧ (upperhex (c.val >>> 4)) ≠ 61 ∧
    (upperhex (c.val >>> 4)) ≠ 59 ∧ (upperhex (c.val >>> 4)) ≠ 35 ∧
    (upperhex (c.val &&& 15)) ≠ 38 ∧ (upperhex (c.val &&& 15)) ≠ 61 ∧
    (upperhex (c.val &&& 15)) ≠ 59 ∧ (upperhex (c.val &&& 15)) ≠ 35 := by
  decide

theorem QueryUnescape_percent (h1 h2 : Byte) (rest : GoString) :
    QueryUnescape (37 :: h1 :: h2 :: rest) =
      if ishex h1 && ishex h2 then
        (QueryUnescape rest).map
          (fun t => (Fin.ofNat (((unhex h1 <<< 4) % 256) ||| unhex h2) : Byte) :: t)
      else none := by
  rw [QueryUnescape]
  simp

theorem QueryUnescape_plus (cs : GoString) :
    QueryUnescape (43 :: cs) = (QueryUnescape cs).map (fun t => (32 : Byte) :: t) := by
  rcases cs with _ | ⟨a, _ | ⟨b, rest⟩⟩ <;> simp [QueryUnescape]

theorem QueryUnescape_other (c : Byte) (cs : GoString) (h37 : c ≠ 37) (h43 : c ≠ 43) :
    QueryUnescape (c :: cs) = (QueryUnescape cs).map (fun t => c :: t) := by
  rcases cs with _ | ⟨a, _ | ⟨b, rest⟩⟩ <;> simp [QueryUnescape, h37, h43]

/-- Unescaping an escaped string gives the string back. -/
theorem QueryUnescape_QueryEscape (s : GoString) : QueryUnescape (QueryEscape s) = some s := by
  induction s with
  | nil => rfl
  | cons c cs ih =>
    unfold QueryEscape
    by_cases h32 : c = 32
    · subst h32
      simp [QueryUnescape_plus, ih]
    · by_cases hesc : shouldEscape c = true
      · obtain ⟨h1, h2, h3⟩ := hex_roundtrip c
        simp [h32, hesc, QueryUnescape_percent, ih, h1, h2, h3]
      · have hesc' : shouldEscape c = false := by simpa using hesc
        obtain ⟨h37, h43, -⟩ := kept_byte c hesc'
        simp [h32, hesc', QueryUnescape_other c _ h37 h43, ih]

/-- An escaped string contains none of `&`, `=`, `;`, `#`. -/
theorem QueryEscape_plain (s : GoString) : ∀ b ∈ QueryEscape s, isDelim b = false := by
  induction s with
  | nil => simp [QueryEscape]
  | cons c cs ih =>
    unfold QueryEscape
    by_cases h32 : c = 32
    · subst h32
      simp only [if_true, List.mem_cons]
      intro b hb
      rcases hb with rfl | hb
      · decide
      · exact ih b hb
    · by_cases hesc : shouldEscape c = true
      · obtain ⟨a1, a2, a3, a4, a5, a6, a7, a8⟩ := upperhex_plain c
        simp only [h32, hesc, if_true, if_false, List.mem_cons]
        intro b hb
        rcases hb with rfl | rfl | rfl | hb
        · decide
        · simp [isDelim, a1, a2, a3, a4]
        · simp [isDelim, a5, a6, a7, a8]
        · exact ih b hb
      · have hesc' : shouldEscape c = false := by simpa using hesc
        obtain ⟨-, -, h38, h61, h59, h35, -⟩ := kept_byte c hesc'
        rw [if_neg h32, if_neg hesc]
        intro b hb
        rcases List.mem_cons.mp hb with rfl | hb
        · simp [isDelim, h38, h61, h59, h35]
        · exact ih b hb

/-- A string of bytes that are never escaped is its own escaped form. -/
theorem QueryEscape_unreserved (s : GoString) (h : ∀ b ∈ s, shouldEscape b = false) :
    QueryEscape s = s := by
  induction s with
  | nil => rfl
  | cons c cs ih =>
    have hc : shouldEscape c = false := h c (List.mem_cons_self _ _)
    have h32 : c ≠ 32 := (kept_byte c hc).2.2.2.2.2.2
    unfold QueryEscape
    rw [if_neg h32, hc, ih (fun b hb => h b (List.mem_cons_of_mem _ hb))]
    simp

/-! ## Lemmas on `Values.Encode` and `ParseQuery` -/

theorem encodeValues_eq (k : GoString) (buf : GoString) (xs : List GoString) :
    encodeValues (QueryEscape k) buf xs = encodePairs buf (xs.map (fun x => (k, x))) := by
  induction xs generalizing buf with
  | nil => rfl
  | cons x xs ih => simp [encodeValues, encodePairs, ih]

theorem encodePairs_append (buf : GoString) (ps qs : List (GoString × GoString)) :
    encodePairs buf (ps ++ qs) = encodePairs (encodePairs buf ps) qs := by
  induction ps generalizing buf with
  | nil => rfl
  | cons p ps ih => simp [encodePairs, ih]

theorem encodeKeys_eq (v : Values) (buf : GoString) (ks : List GoString) :
    encodeKeys v buf ks = encodePairs buf (flatPairs v ks) := by
  induction ks generalizing buf with
  | nil => rfl
  | cons k ks ih => simp [encodeKeys, flatPairs, encodePairs_append, encodeValues_eq, ih]

theorem encodePairs_of_ne_nil (buf : GoString) (ps : List (GoString × GoString))
    (h : buf ≠ []) : encodePairs buf ps = buf ++ tailText ps := by
  induction ps generalizing buf with
  | nil => simp [encodePairs, tailText]
  | cons p ps ih =>
    have hpos : buf.length > 0 := List.length_pos.mpr h
    rw [encodePairs, if_pos hpos, ih _ (by simp)]
    simp [tailText, pairText]

theorem encodePairs_nil_cons (p : GoString × GoString) (ps : List (GoString × GoString)) :
    encodePairs [] (p :: ps) = pairText p ++ tailText ps := by
  rw [encodePairs]
  simp only [List.length_nil, gt_iff_lt, lt_self_iff_false, if_false, List.nil_append]
  rw [encodePairs_of_ne_nil _ _ (by simp)]
  simp [pairText]

theorem parseQueryLoop_plain (m : Values) (seg s rest : GoString) (h : ∀ b ∈ s, b ≠ 38) :
    parseQueryLoop m seg (s ++ rest) = parseQueryLoop m (seg ++ s) rest := by
  induction s generalizing seg with
  | nil => simp
  | cons c cs ih =>
    have hc : c ≠ 38 := h c (List.mem_cons_self _ _)
    rw [List.cons_append, parseQueryLoop, if_neg hc,
      ih _ (fun b hb => h b (List.mem_cons_of_mem _ hb))]
    simp

theorem cut_plain (sep : Byte) (s t : GoString) (h : ∀ b ∈ s, b ≠ sep) :
    cut sep (s ++ sep :: t) = (s, t) := by
  induction s with
  | nil => simp [cut]
  | cons c cs ih =>
    have hc : c ≠ sep := h c (List.mem_cons_self _ _)
    simp [cut, hc, ih (fun b hb => h b (List.mem_cons_of_mem _ hb))]

theorem pairText_plain (p : GoString × GoString) (b : Byte) (hb : b ∈ pairText p) :
    b ≠ 38 ∧ b ≠ 59 := by
  simp only [pairText, List.mem_append, List.mem_singleton] at hb
  rcases hb with (hb | rfl) | hb
  · have := QueryEscape_plain _ b hb
    simp [isDelim] at this
    exact ⟨this.1.1.1, this.1.2⟩
  · decide
  · have := QueryEscape_plain _ b hb
    simp [isDelim] at this
    exact ⟨this.1.1.1, this.1.2⟩

/-- One encoded pair is read back by one turn of the loop of `parseQuery`. -/
theorem parseSegment_pairText (m : Values) (p : GoString × GoString) :
    parseSegment m (pairText p) = Values.add m p.1 p.2 := by
  have h59 : (59 : Byte) ∉ pairText p := fun hmem => (pairText_plain p 59 hmem).2 rfl
  have hne : pairText p ≠ [] := by simp [pairText]
  have hcut : cut 61 (pairText p) = (QueryEscape p.1, QueryEscape p.2) := by
    have : pairText p = QueryEscape p.1 ++ (61 : Byte) :: QueryEscape p.2 := by simp [pairText]
    rw [this]
    apply cut_plain
    intro b hb
    have := QueryEscape_plain _ b hb
    simp [isDelim] at this
    exact this.1.1.2
  simp [parseSegment, h59, hne, hcut, QueryUnescape_QueryEscape]

theorem parseQueryLoop_tailText (m : Values) (cur : GoString)
    (ps : List (GoString × GoString)) :
    parseQueryLoop m cur (tailText ps) = addAll (parseSegment m cur) ps := by
  induction ps generalizing m cur with
  | nil => simp [tailText, parseQueryLoop, addAll]
  | cons p ps ih =>
    simp only [tailText, parseQueryLoop, if_true]
    rw [parseQueryLoop_plain _ _ _ _ (fun b hb => (pairText_plain p b hb).1), ih]
    simp [addAll, parseSegment_pairText]

/-- Parsing the encoding of a list of pairs gives the pairs back, grouped by key. -/
theorem ParseQuery_encodePairs (ps : List (GoString × GoString)) :
    ParseQuery (encodePairs [] ps) = addAll [] ps := by
  cases ps with
  | nil => simp [ParseQuery, encodePairs, parseQueryLoop, parseSegment, addAll]
  | cons p ps =>
    rw [encodePairs_nil_cons, ParseQuery,
      parseQueryLoop_plain _ _ _ _ (fun b hb => (pairText_plain p b hb).1),
      parseQueryLoop_tailText]
    simp [addAll, parseSegment_pairText]

theorem lookup_add (m : Values) (k x key : GoString) :
    Values.lookup (Values.add m k x) key =
      if k = key then Values.lookup m key ++ [x] else Values.lookup m key := by
  induction m with
  | nil => by_cases h : k = key <;> simp [Values.add, Values.lookup, h]
  | cons e m ih =>
    obtain ⟨k0, vs⟩ := e
    by_cases h0 : k0 = k
    · subst h0
      by_cases h : k0 = key <;> simp [Values.add, Values.lookup, h]
    · by_cases h : k = key
      · subst h
        simp [Values.add, Values.lookup, h0, ih]
      · by_cases h1 : k0 = key
        · subst h1
          simp [Values.add, Values.lookup, h0, h]
        · simp [Values.add, Values.lookup, h0, h1, h, ih]

theorem lookup_addAll (m : Values) (ps : List (GoString × GoString)) (key : GoString) :
    Values.lookup (addAll m ps) key =
      Values.lookup m key ++ (ps.filter (fun p => decide (p.1 = key))).map Prod.snd := by
  induction ps generalizing m with
  | nil => simp [addAll]
  | cons p ps ih =>
    rw [addAll, ih, lookup_add]
    by_cases h : p.1 = key <;> simp [h]

theorem flatPairs_filter_of_not_mem (v : Values) (ks : List GoString) (key : GoString)
    (h : key ∉ ks) : (flatPairs v ks).filter (fun p => decide (p.1 = key)) = [] := by
  induction ks with
  | nil => rfl
  | cons k ks ih =>
    have hk : k ≠ key := fun e => h (e ▸ List.mem_cons_self _ _)
    have hks : key ∉ ks := fun e => h (List.mem_cons_of_mem _ e)
    simp [flatPairs, List.filter_append, ih hks, List.filter_map, hk, Function.comp_def]

theorem flatPairs_filter_of_count (v : Values) (ks : List GoString) (key : GoString)
    (h : ks.count key = 1) :
    ((flatPairs v ks).filter (fun p => decide (p.1 = key))).map Prod.snd
      = Values.lookup v key := by
  induction ks with
  | nil => simp at h
  | cons k ks ih =>
    by_cases hk : k = key
    · subst hk
      have hks : k ∉ ks := by
        intro hmem
        have := List.count_pos_iff.mpr hmem
        simp at h
        omega
      simp [flatPairs, List.filter_append, flatPairs_filter_of_not_mem v ks k hks,
        List.filter_map, Function.comp_def]
    · have hc : ks.count key = 1 := by
        rw [List.count_cons_of_ne (Ne.symm hk)] at h
        exact h
      simp [flatPairs, List.filter_append, List.filter_map, hk, Function.comp_def, ih hc]

theorem count_insertKey (key k : GoString) (ks : List GoString) :
    (insertKey k ks).count key = (k :: ks).count key := by
  induction ks with
  | nil => rfl
  | cons x xs ih =>
    unfold insertKey
    by_cases h : strLess x k = true
    · simp only [h, if_true, List.count_cons, ih]
      omega
    · simp [h]

theorem count_sortKeys (key : GoString) (ks : List GoString) :
    (sortKeys ks).count key = ks.count key := by
  induction ks with
  | nil => rfl
  | cons k ks ih => simp [sortKeys, count_insertKey, List.count_cons, ih]

theorem count_keys_Set (v : Values) (key x : GoString) :
    (Values.keys (Values.Set v key x)).count key = 1 := by
  have h : key ∉ (Values.keys (v.filter (fun p => decide (p.1 ≠ key)))).filter
      (fun y => decide (y ≠ key)) := by
    simp [List.mem_filter]
  have h0 := List.count_eq_zero_of_not_mem h
  rw [Values.Set, Values.keys, List.count_cons, h0]
  simp

theorem lookup_Set (v : Values) (key x : GoString) :
    Values.lookup (Values.Set v key x) key = [x] := by
  simp [Values.Set, Values.lookup]

/-- Whatever the map holds, after `Set(key, x)` its encoded form parses back to a query in
which `key` has the single value `x`. -/
theorem lookup_ParseQuery_Encode_Set (v : Values) (key x : GoString) :
    Values.lookup (ParseQuery (Values.Encode (Values.Set v key x))) key = [x] := by
  have hlen : (Values.Set v key x).length ≠ 0 := by simp [Values.Set]
  rw [Values.Encode, if_neg hlen, encodeKeys_eq, ParseQuery_encodePairs, lookup_addAll,
    flatPairs_filter_of_count _ _ _ (by rw [count_sortKeys, count_keys_Set]), lookup_Set]
  simp [Values.lookup]

/-! ## Lemmas on `do` -/

/-- The helper `do` either stops before `httpClient.Do` with an error and no request, or hands
over exactly the request `Client.request` and classifies what comes back. -/
theorem do_eq (env : Env) (c : Client) (method path : GoString) (queryParams : Option Values)
    (body : Option Payload) :
    (c.reaches env method path queryParams body →
      c.do env method path queryParams body =
        (classify (env.roundTrip (c.request method path queryParams body)),
          [c.request method path queryParams body])) ∧
    (¬ c.reaches env method path queryParams body →
      (c.do env method path queryParams body).2 = [] ∧
      ∃ e, (c.do env method path queryParams body).1.err = some e) := by
  have hq : (match queryParams with
      | none => ([] : Values)
      | some q => q) = queryParams.getD [] := by cases queryParams <;> rfl
  unfold Client.reaches Client.do
  simp only [hq]
  cases hu : urlParse env (c.baseURL ++ path) with
  | some e => simp
  | none =>
    cases body with
    | none =>
      cases hn : env.newRequest (c.built method path queryParams none) with
      | some e => simp [Client.built] at hn ⊢; simp [hn]
      | none =>
        simp only [Client.built] at hn
        simp only [hn, Client.request, Client.built, classify]
        cases env.roundTrip _ <;> simp
        split <;> simp
    | some b =>
      cases hm : env.marshal b with
      | some e => simp [hm]
      | none =>
        cases hn : env.newRequest (c.built method path queryParams (some b)) with
        | some e => simp [Client.built] at hn ⊢; simp [hn, hm]
        | none =>
          simp only [Client.built] at hn
          simp only [hn, hm, Client.request, Client.built, classify]
          cases env.roundTrip _ <;> simp [hm]
          split <;> simp

theorem do_of_call (env : Env) (c : Client) (method path : GoString)
    (queryParams : Option Values) (body : Option Payload) (r : Request)
    (h : (c.do env method path queryParams body).2 = [r]) :
    c.reaches env method path queryParams body ∧
      r = c.request method path queryParams body ∧
      c.do env method path queryParams body = (classify (env.roundTrip r), [r]) := by
  by_cases hr : c.reaches env method path queryParams body
  · have he := (do_eq env c method path queryParams body).1 hr
    rw [he] at h
    have hreq : c.request method path queryParams body = r := by simpa using h
    exact ⟨hr, hreq.symm, by rw [he, hreq]⟩
  · have he := ((do_eq env c method path queryParams body).2 hr).1
    rw [he] at h
    cases h

theorem classify_error (s : Int) (d : GoString) (hs : 400 ≤ s) :
    classify (Outcome.response s d) =
      { data := [], status := s,
        err := some (lit "vaultera: API error " ++ fmtInt s ++ lit ": " ++ d) } := by
  simp [classify, hs]

theorem classify_ok (s : Int) (d : GoString) (hs : s < 400) :
    classify (Outcome.response s d) = { data := d, status := s, err := none } := by
  have : ¬ 400 ≤ s := by omega
  simp [classify, this]

theorem CreateCard_of_do_err (env : Env) (c : Client) (card : Card) (e : GoString)
    (h : (c.do env (lit "POST") (lit "/cards") none (some (Payload.card card))).1.err = some e) :
    (c.CreateCard env card).1 = Except.error e := by
  simp only [Client.CreateCard, h]

theorem CreateCard_calls (env : Env) (c : Client) (card : Card) :
    (c.CreateCard env card).2
      = (c.do env (lit "POST") (lit "/cards") none (some (Payload.card card))).2 := by
  unfold Client.CreateCard
  dsimp only
  split
  · rfl
  · split <;> rfl

theorem GetCard_of_do_err (env : Env) (c : Client) (t e : GoString)
    (h : (c.do env (lit "GET") (lit "/cards/" ++ t) none none).1.err = some e) :
    (c.GetCard env t).1 = Except.error e := by
  simp only [Client.GetCard, h]

theorem GetCard_calls (env : Env) (c : Client) (t : GoString) :
    (c.GetCard env t).2 = (c.do env (lit "GET") (lit "/cards/" ++ t) none none).2 := by
  unfold Client.GetCard
  dsimp only
  split
  · rfl
  · split <;> rfl

theorem SendCard_of_do_err (env : Env) (c : Client) (t : GoString) (req : SendRequest)
    (e : GoString)
    (h : (c.do env (lit "POST") (lit "/cards/" ++ t ++ lit "/send") none
      (some (Payload.send req))).1.err = some e) :
    (c.SendCard env t req).1 = Except.error e := by
  simp only [Client.SendCard, h]

theorem SendCard_calls (env : Env) (c : Client) (t : GoString) (req : SendRequest) :
    (c.SendCard env t req).2
      = (c.do env (lit "POST") (lit "/cards/" ++ t ++ lit "/send") none
          (some (Payload.send req))).2 := by
  unfold Client.SendCard
  dsimp only
  split
  · rfl
  · split <;> rfl

theorem Capture_of_do_err (env : Env) (c : Client) (req : CaptureRequest) (e : GoString)
    (h : (c.do env (lit "POST") (lit "/capture") (some (captureParams req))
      (some (Payload.capture req))).1.err = some e) :
    (c.Capture env req).1 = Except.error e := by
  simp only [Client.Capture, h]

theorem Capture_calls (env : Env) (c : Client) (req : CaptureRequest) :
    (c.Capture env req).2
      = (c.do env (lit "POST") (lit "/capture") (some (captureParams req))
          (some (Payload.capture req))).2 := by
  unfold Client.Capture
  dsimp only
  split
  · rfl
  · split <;> rfl

theorem CreateSessionToken_of_do_err (env : Env) (c : Client) (scope e : GoString)
    (h : (c.do env (lit "POST") (lit "/session_tokens") none
      (some (Payload.sessionToken { Scope := scope }))).1.err = some e) :
    (c.CreateSessionToken env scope).1 = Except.error e := by
  simp only [Client.CreateSessionToken, h]

theorem CreateSessionToken_calls (env : Env) (c : Client) (scope : GoString) :
    (c.CreateSessionToken env scope).2
      = (c.do env (lit "POST") (lit "/session_tokens") none
          (some (Payload.sessionToken { Scope := scope }))).2 := by
  unfold Client.CreateSessionToken
  dsimp only
  split
  · rfl
  · split <;> rfl

/-- Once the request is out and answered with a status of 400 or more, `do` returns the API
error. -/
theorem do_api_error (env : Env) (c : Client) (method path : GoString)
    (queryParams : Option Values) (body : Option Payload) (r : Request) (s : Int)
    (d : GoString) (hs : 400 ≤ s)
    (hcall : (c.do env method path queryParams body).2 = [r])
    (hresp : env.roundTrip r = Outcome.response s d) :
    (c.do env method path queryParams body).1 =
      { data := [], status := s,
        err := some (lit "vaultera: API error " ++ fmtInt s ++ lit ": " ++ d) } := by
  rw [(do_of_call env c method path queryParams body r hcall).2.2, hresp, classify_error s d hs]

/-! ## The operations once `do` reaches the vault -/

theorem CreateCard_of_reaches (env : Env) (c : Client) (card : Card)
    (hr : c.reaches env (lit "POST") (lit "/cards") none
      (some (Payload.card card))) :
    c.CreateCard env card =
      ((match (classify (env.roundTrip
            (c.request (lit "POST") (lit "/cards") none
              (some (Payload.card card))))).err with
        | some err => Except.error err
        | none =>
          match env.unmarshalCard (classify (env.roundTrip
              (c.request (lit "POST") (lit "/cards") none
                (some (Payload.card card))))).data with
          | Except.error err => Except.error (lit "vaultera: decode card response: " ++ err)
          | Except.ok v => Except.ok v),
        [c.request (lit "POST") (lit "/cards") none
          (some (Payload.card card))]) := by
  have hdo := (do_eq env c (lit "POST") (lit "/cards") none
    (some (Payload.card card))).1 hr
  simp only [Client.CreateCard, hdo]
  cases (classify (env.roundTrip
      (c.request (lit "POST") (lit "/cards") none
        (some (Payload.card card))))).err with
  | some e => rfl
  | none =>
    dsimp only
    cases env.unmarshalCard (classify (env.roundTrip
      (c.request (lit "POST") (lit "/cards") none
        (some (Payload.card card))))).data <;> rfl

theorem GetCard_of_reaches (env : Env) (c : Client) (t : GoString)
    (hr : c.reaches env (lit "GET") (lit "/cards/" ++ t) none
      none) :
    c.GetCard env t =
      ((match (classify (env.roundTrip
            (c.request (lit "GET") (lit "/cards/" ++ t) none
              none))).err with
        | some err => Except.error err
        | none =>
          match env.unmarshalCard (classify (env.roundTrip
              (c.request (lit "GET") (lit "/cards/" ++ t) none
                none))).data with
          | Except.error err => Except.error (lit "vaultera: decode card response: " ++ err)
          | Except.ok v => Except.ok v),
        [c.request (lit "GET") (lit "/cards/" ++ t) none
          none]) := by
  have hdo := (do_eq env c (lit "GET") (lit "/cards/" ++ t) none
    none).1 hr
  simp only [Client.GetCard, hdo]
  cases (classify (env.roundTrip
      (c.request (lit "GET") (lit "/cards/" ++ t) none
        none))).err with
  | some e => rfl
  | none =>
    dsimp only
    cases env.unmarshalCard (classify (env.roundTrip
      (c.request (lit "GET") (lit "/cards/" ++ t) none
        none))).data <;> rfl

theorem SendCard_of_reaches (env : Env) (c : Client) (t : GoString) (req : SendRequest)
    (hr : c.reaches env (lit "POST") (lit "/cards/" ++ t ++ lit "/send") none
      (some (Payload.send req))) :
    c.SendCard env t req =
      ((match (classify (env.roundTrip
            (c.request (lit "POST") (lit "/cards/" ++ t ++ lit "/send") none
              (some (Payload.send req))))).err with
        | some err => Except.error err
        | none =>
          match env.unmarshalSend (classify (env.roundTrip
              (c.request (lit "POST") (lit "/cards/" ++ t ++ lit "/send") none
                (some (Payload.send req))))).data with
          | Except.error err => Except.error (lit "vaultera: decode send response: " ++ err)
          | Except.ok v => Except.ok v),
        [c.request (lit "POST") (lit "/cards/" ++ t ++ lit "/send") none
          (some (Payload.send req))]) := by
  have hdo := (do_eq env c (lit "POST") (lit "/cards/" ++ t ++ lit "/send") none
    (some (Payload.send req))).1 hr
  simp only [Client.SendCard, hdo]
  cases (classify (env.roundTrip
      (c.request (lit "POST") (lit "/cards/" ++ t ++ lit "/send") none
        (some (Payload.send req))))).err with
  | some e => rfl
  | none =>
    dsimp only
    cases env.unmarshalSend (classify (env.roundTrip
      (c.request (lit "POST") (lit "/cards/" ++ t ++ lit "/send") none
        (some (Payload.send req))))).data <;> rfl

theorem Capture_of_reaches (env : Env) (c : Client) (req : CaptureRequest)
    (hr : c.reaches env (lit "POST") (lit "/capture") (some (captureParams req))
      (some (Payload.capture req))) :
    c.Capture env req =
      ((match (classify (env.roundTrip
            (c.request (lit "POST") (lit "/capture") (some (captureParams req))
              (some (Payload.capture req))))).err with
        | some err => Except.error err
        | none =>
          match env.unmarshalCapture (classify (env.roundTrip
              (c.request (lit "POST") (lit "/capture") (some (captureParams req))
                (some (Payload.capture req))))).data with
          | Except.error err => Except.error (lit "vaultera: decode capture response: " ++ err)
          | Except.ok v => Except.ok v),
        [c.request (lit "POST") (lit "/capture") (some (captureParams req))
          (some (Payload.capture req))]) := by
  have hdo := (do_eq env c (lit "POST") (lit "/capture") (some (captureParams req))
    (some (Payload.capture req))).1 hr
  simp only [Client.Capture, hdo]
  cases (classify (env.roundTrip
      (c.request (lit "POST") (lit "/capture") (some (captureParams req))
        (some (Payload.capture req))))).err with
  | some e => rfl
  | none =>
    dsimp only
    cases env.unmarshalCapture (classify (env.roundTrip
      (c.request (lit "POST") (lit "/capture") (some (captureParams req))
        (some (Payload.capture req))))).data <;> rfl

theorem CreateSessionToken_of_reaches (env : Env) (c : Client) (scope : GoString)
    (hr : c.reaches env (lit "POST") (lit "/session_tokens") none
      (some (Payload.sessionToken { Scope := scope }))) :
    c.CreateSessionToken env scope =
      ((match (classify (env.roundTrip
            (c.request (lit "POST") (lit "/session_tokens") none
              (some (Payload.sessionToken { Scope := scope }))))).err with
        | some err => Except.error err
        | none =>
          match env.unmarshalSessionToken (classify (env.roundTrip
              (c.request (lit "POST") (lit "/session_tokens") none
                (some (Payload.sessionToken { Scope := scope }))))).data with
          | Except.error err => Except.error (lit "vaultera: decode session_token response: " ++ err)
          | Except.ok v => Except.ok v),
        [c.request (lit "POST") (lit "/session_tokens") none
          (some (Payload.sessionToken { Scope := scope }))]) := by
  have hdo := (do_eq env c (lit "POST") (lit "/session_tokens") none
    (some (Payload.sessionToken { Scope := scope }))).1 hr
  simp only [Client.CreateSessionToken, hdo]
  cases (classify (env.roundTrip
      (c.request (lit "POST") (lit "/session_tokens") none
        (some (Payload.sessionToken { Scope := scope }))))).err with
  | some e => rfl
  | none =>
    dsimp only
    cases env.unmarshalSessionToken (classify (env.roundTrip
      (c.request (lit "POST") (lit "/session_tokens") none
        (some (Payload.sessionToken { Scope := scope }))))).data <;> rfl

theorem DeleteCard_of_reaches (env : Env) (c : Client) (t : GoString)
    (hr : c.reaches env (lit "DELETE") (lit "/cards/" ++ t) none none) :
    c.DeleteCard env t =
      ((classify (env.roundTrip (c.request (lit "DELETE") (lit "/cards/" ++ t) none none))).err,
        [c.request (lit "DELETE") (lit "/cards/" ++ t) none none]) := by
  have hdo := (do_eq env c (lit "DELETE") (lit "/cards/" ++ t) none none).1 hr
  simp only [Client.DeleteCard, hdo]

/-- C1: a charge request whose `card_token` is empty or whose `url` is empty, whatever its
method, headers and body, is answered with a validation failure, status 400 and an `error`
message, and no request is handed to the vault; when the body decodes the message is
"card_token and url are required". -/
theorem Charge_rejects_missing_fields (env : Env) (h : PaymentHandler) (c : Ctx)
    (hmissing : ∀ req, env.bodyParserCharge c = Except.ok req →
      req.CardToken = [] ∨ req.URL = []) :
    (h.Charge env c).1.status = 400 ∧
      (∃ msg, (h.Charge env c).1.body = ResponseBody.error msg) ∧
      (h.Charge env c).2 = [] ∧
      (∀ req, env.bodyParserCharge c = Except.ok req →
        h.Charge env c =
          ({ status := 400,
             body := ResponseBody.error (lit "card_token and url are required") }, [])) := by
  cases hbody : env.bodyParserCharge c with
  | error e => simp [PaymentHandler.Charge, hbody]
  | ok req =>
    have hm := hmissing req hbody
    simp [PaymentHandler.Charge, hbody, hm]

/-- Witness of C1: the request of `TestCharge_MissingFields`. -/
theorem Charge_rejects_missing_fields_witness :
    (NewPaymentHandler testClient).Charge missingFieldsEnv emptyCtx =
      ({ status := 400, body := ResponseBody.error (lit "card_token and url are required") },
        []) :=
  (Charge_rejects_missing_fields missingFieldsEnv (NewPaymentHandler testClient) emptyCtx
    (fun _ hreq => Or.inl (by cases hreq; rfl))).2.2.2
    { CardToken := [], Method := [], URL := [], Headers := [], Body := [] } rfl

/-- C2: every request that `do` hands to the vault, whatever the method, the path and the
caller's query parameters (nil, those of `Capture`, or any map, one with its own `api_key`
included), has a query string in which `api_key` has exactly one value, the credential of
the client; the same is said once more for the requests of `Capture`. -/
theorem do_query_has_api_key (env : Env) (c : Client) :
    (∀ (method path : GoString) (queryParams : Option Values) (body : Option Payload)
        (r : Request), r ∈ (c.do env method path queryParams body).2 →
        Values.lookup (ParseQuery r.rawQuery) (lit "api_key") = [c.apiKey]) ∧
    (∀ (req : CaptureRequest) (r : Request), r ∈ (c.Capture env req).2 →
        Values.lookup (ParseQuery r.rawQuery) (lit "api_key") = [c.apiKey]) := by
  have hdo : ∀ (method path : GoString) (queryParams : Option Values) (body : Option Payload)
      (r : Request), r ∈ (c.do env method path queryParams body).2 →
      Values.lookup (ParseQuery r.rawQuery) (lit "api_key") = [c.apiKey] := by
    intro method path queryParams body r hr
    by_cases hreach : c.reaches env method path queryParams body
    · rw [(do_eq env c method path queryParams body).1 hreach] at hr
      have : r = c.request method path queryParams body := by simpa using hr
      subst this
      exact lookup_ParseQuery_Encode_Set _ _ _
    · rw [((do_eq env c method path queryParams body).2 hreach).1] at hr
      cases hr
  refine ⟨hdo, ?_⟩
  intro req r hr
  rw [Capture_calls] at hr
  exact hdo _ _ _ _ r hr

/-- Witness of C2: a `POST /capture` whose caller has set `api_key` twice; the query sent
still parses to the one value `test-api-key`. -/
theorem do_query_has_api_key_witness :
    (testClient.request (lit "POST") (lit "/capture") (some staleParams) none).rawQuery
        = lit "api_key=test-api-key&url=https%3A%2F%2Fa.example%2Fb%3Fc%3Dd%26e" ∧
      Values.lookup
        (ParseQuery (testClient.request (lit "POST") (lit "/capture") (some staleParams)
          none).rawQuery) (lit "api_key") = [lit "test-api-key"] :=
  ⟨by decide,
    (do_query_has_api_key (testEnv (Outcome.response 200 [])) testClient).1 (lit "POST")
      (lit "/capture") (some staleParams) none _ (by decide)⟩

/-- C3: when the vault answers the request of an operation with a status `s >= 400` and the
body `d`, the helper `do` and each of the six operations hand over that one request and
return an error, never a value, whose text is exactly `vaultera: API error <s>: <d>`; and
the boundary is exact: with a status below 400, 399 included, `do` returns the body and no
error. -/
theorem api_error_surfaces (env : Env) (c : Client) (s : Int) (d : GoString) :
    (400 ≤ s →
      (∀ (method path : GoString) (q : Option Values) (body : Option Payload),
        c.reaches env method path q body →
        env.roundTrip (c.request method path q body) = Outcome.response s d →
        c.do env method path q body =
          ({ data := [], status := s,
             err := some (lit "vaultera: API error " ++ fmtInt s ++ lit ": " ++ d) },
            [c.request method path q body])) ∧
      (∀ (card : Card),
        c.reaches env (lit "POST") (lit "/cards") none (some (Payload.card card)) →
        env.roundTrip (c.request (lit "POST") (lit "/cards") none (some (Payload.card card)))
          = Outcome.response s d →
        c.CreateCard env card =
          (Except.error (lit "vaultera: API error " ++ fmtInt s ++ lit ": " ++ d),
            [c.request (lit "POST") (lit "/cards") none (some (Payload.card card))])) ∧
      (∀ (t : GoString),
        c.reaches env (lit "GET") (lit "/cards/" ++ t) none none →
        env.roundTrip (c.request (lit "GET") (lit "/cards/" ++ t) none none)
          = Outcome.response s d →
        c.GetCard env t =
          (Except.error (lit "vaultera: API error " ++ fmtInt s ++ lit ": " ++ d),
            [c.request (lit "GET") (lit "/cards/" ++ t) none none])) ∧
      (∀ (t : GoString) (req : SendRequest),
        c.reaches env (lit "POST") (lit "/cards/" ++ t ++ lit "/send") none
            (some (Payload.send req)) →
        env.roundTrip (c.request (lit "POST") (lit "/cards/" ++ t ++ lit "/send") none
            (some (Payload.send req)))
          = Outcome.response s d →
        c.SendCard env t req =
          (Except.error (lit "vaultera: API error " ++ fmtInt s ++ lit ": " ++ d),
            [c.request (lit "POST") (lit "/cards/" ++ t ++ lit "/send") none
                (some (Payload.send req))])) ∧
      (∀ (req : CaptureRequest),
        c.reaches env (lit "POST") (lit "/capture") (some (captureParams req))
            (some (Payload.capture req)) →
        env.roundTrip (c.request (lit "POST") (lit "/capture") (some (captureParams req))
            (some (Payload.capture req)))
          = Outcome.response s d →
        c.Capture env req =
          (Except.error (lit "vaultera: API error " ++ fmtInt s ++ lit ": " ++ d),
            [c.request (lit "POST") (lit "/capture") (some (captureParams req))
                (some (Payload.capture req))])) ∧
      (∀ (scope : GoString),
        c.reaches env (lit "POST") (lit "/session_tokens") none
            (some (Payload.sessionToken { Scope := scope })) →
        env.roundTrip (c.request (lit "POST") (lit "/session_tokens") none
            (some (Payload.sessionToken { Scope := scope })))
          = Outcome.response s d →
        c.CreateSessionToken env scope =
          (Except.error (lit "vaultera: API error " ++ fmtInt s ++ lit ": " ++ d),
            [c.request (lit "POST") (lit "/session_tokens") none
                (some (Payload.sessionToken { Scope := scope }))])) ∧
      (∀ (t : GoString),
        c.reaches env (lit "DELETE") (lit "/cards/" ++ t) none none →
        env.roundTrip (c.request (lit "DELETE") (lit "/cards/" ++ t) none none)
          = Outcome.response s d →
        c.DeleteCard env t =
          (some (lit "vaultera: API error " ++ fmtInt s ++ lit ": " ++ d),
            [c.request (lit "DELETE") (lit "/cards/" ++ t) none none]))) ∧
    (s < 400 →
      ∀ (method path : GoString) (q : Option Values) (body : Option Payload),
        c.reaches env method path q body →
        env.roundTrip (c.request method path q body) = Outcome.response s d →
        c.do env method path q body =
          ({ data := d, status := s, err := none }, [c.request method path q body])) := by
  refine ⟨fun hs => ⟨?_, ?_, ?_, ?_, ?_, ?_, ?_⟩, fun hs => ?_⟩
  · intro method path q body hr hresp
    rw [(do_eq env c method path q body).1 hr, hresp, classify_error s d hs]
  · intro card hr hresp
    rw [CreateCard_of_reaches env c card hr, hresp, classify_error s d hs]
  · intro t hr hresp
    rw [GetCard_of_reaches env c t hr, hresp, classify_error s d hs]
  · intro t req hr hresp
    rw [SendCard_of_reaches env c t req hr, hresp, classify_error s d hs]
  · intro req hr hresp
    rw [Capture_of_reaches env c req hr, hresp, classify_error s d hs]
  · intro scope hr hresp
    rw [CreateSessionToken_of_reaches env c scope hr, hresp, classify_error s d hs]
  · intro t hr hresp
    rw [DeleteCard_of_reaches env c t hr, hresp, classify_error s d hs]
  · intro method path q body hr hresp
    rw [(do_eq env c method path q body).1 hr, hresp, classify_ok s d hs]

/-- Witness of C3: the exchange of `TestAPIError`, a 401 on `GetCard("bad_token")`. -/
theorem api_error_surfaces_witness :
    testClient.GetCard (testEnv (Outcome.response 401 (lit "invalid api key")))
        (lit "bad_token") =
      (Except.error (lit "vaultera: API error 401: invalid api key"),
        [testClient.request (lit "GET") (lit "/cards/bad_token") none none]) :=
  ((api_error_surfaces (testEnv (Outcome.response 401 (lit "invalid api key"))) testClient 401
    (lit "invalid api key")).1 (by decide)).2.2.1 (lit "bad_token")
    ⟨by decide, fun _ hb => Option.noConfusion hb, rfl⟩ rfl

/-- The overall status code and the `status` entry of the health report. -/
theorem HealthHandler_status (db ariDB redisClient : Dependency) :
    (HealthHandler db ariDB redisClient).1
        = (if db.failed || ariDB.failed || redisClient.failed then 503 else 200) ∧
      FiberMap.get (HealthHandler db ariDB redisClient).2 (lit "status")
        = some (if db.failed || ariDB.failed || redisClient.failed then lit "degraded"
            else lit "healthy") := by
  rcases db with _ | _ | _ <;> rcases ariDB with _ | _ | _ <;>
    rcases redisClient with _ | _ | _ <;> exact ⟨rfl, rfl⟩

theorem degraded_iff (b : Bool) :
    some (if b = true then lit "degraded" else lit "healthy") = some (lit "degraded")
      ↔ b = true := by
  cases b <;> decide

/-- C5: for every combination of absent and configured dependencies and every outcome of
their probes, the health handler answers 200 with overall status `healthy` when no configured
dependency fails its probe, and 503 with overall status `degraded` otherwise; with no
dependency configured it answers 200 and `healthy`. -/
theorem HealthHandler_overall (db ariDB redisClient : Dependency) :
    (HealthHandler db ariDB redisClient).1
        = (if db.failed || ariDB.failed || redisClient.failed then 503 else 200) ∧
      FiberMap.get (HealthHandler db ariDB redisClient).2 (lit "status")
        = some (if db.failed || ariDB.failed || redisClient.failed then lit "degraded"
            else lit "healthy") ∧
      HealthHandler none none none = (200, [(lit "status", lit "healthy")]) :=
  ⟨(HealthHandler_status db ariDB redisClient).1, (HealthHandler_status db ariDB redisClient).2,
    rfl⟩

/-- C6: the health report has, besides `status`, an entry exactly for each configured
dependency; the entry is `healthy` when the probe succeeds and `unhealthy` when it fails,
whatever the other dependencies do, and the overall status is `degraded` only when a
configured dependency has failed its probe. -/
theorem HealthHandler_entries (db ariDB redisClient : Dependency) :
    FiberMap.get (HealthHandler db ariDB redisClient).2 (lit "database") = db.entry ∧
      FiberMap.get (HealthHandler db ariDB redisClient).2 (lit "ari_database") = ariDB.entry ∧
      FiberMap.get (HealthHandler db ariDB redisClient).2 (lit "redis") = redisClient.entry ∧
      (HealthHandler db ariDB redisClient).2.map Prod.fst = reportKeys db ariDB redisClient ∧
      (FiberMap.get (HealthHandler db ariDB redisClient).2 (lit "status") = some (lit "degraded")
        ↔ (db.failed || ariDB.failed || redisClient.failed) = true) := by
  refine ⟨?_, ?_, ?_, ?_, ?_⟩
  · rcases db with _ | _ | _ <;> rcases ariDB with _ | _ | _ <;>
      rcases redisClient with _ | _ | _ <;> rfl
  · rcases db with _ | _ | _ <;> rcases ariDB with _ | _ | _ <;>
      rcases redisClient with _ | _ | _ <;> rfl
  · rcases db with _ | _ | _ <;> rcases ariDB with _ | _ | _ <;>
      rcases redisClient with _ | _ | _ <;> rfl
  · rcases db with _ | _ | _ <;> rcases ariDB with _ | _ | _ <;>
      rcases redisClient with _ | _ | _ <;> rfl
  · rw [(HealthHandler_status db ariDB redisClient).2]
    exact degraded_iff _

theorem Encode_single (k x : GoString) :
    Values.Encode (Values.Set [] k x) = QueryEscape k ++ [(61 : Byte)] ++ QueryEscape x := by
  simp [Values.Encode, Values.Set, Values.keys, sortKeys, insertKey, encodeKeys, encodeValues,
    Values.lookup]

/-- The capture form URL carries the query-escaped token. -/
theorem CaptureFormURL_eq (c : Client) (t : GoString) :
    c.CaptureFormURL t = c.baseURL ++ lit "/capture_form?session_token=" ++ QueryEscape t := by
  have hk : QueryEscape (lit "session_token") = lit "session_token" := by decide
  have hcat : ∀ r : GoString, lit "/capture_form?" ++ (lit "session_token" ++ ([(61 : Byte)] ++ r))
      = lit "/capture_form?session_token=" ++ r := fun _ => rfl
  unfold Client.CaptureFormURL
  dsimp only
  rw [Encode_single, hk, List.append_assoc, List.append_assoc, List.append_assoc, hcat]

theorem unreserved_of_all (t : GoString) (h : t.all (fun b => !shouldEscape b) = true) :
    ∀ b ∈ t, shouldEscape b = false := by
  intro b hb
  have := List.all_eq_true.mp h b hb
  simpa using this

/-- C7, as stated, fails: for the session token `st xyz` the URL ends in `st+xyz`, not in the
token itself. -/
theorem CaptureFormURL_not_concatenation :
    testClient.CaptureFormURL (lit "st xyz")
        = lit "https://pci.vaultera.co/api/v1/capture_form?session_token=st+xyz" ∧
      testClient.CaptureFormURL (lit "st xyz")
        ≠ testClient.baseURL ++ lit "/capture_form?session_token=" ++ lit "st xyz" := by
  decide

/-- C7, amended: for every base URL and every session token made only of bytes that
`QueryEscape` leaves alone (letters, digits, `-`, `_`, `.`, `~`), `CaptureFormURL` is the
concatenation of the base URL, `/capture_form?session_token=` and the token. -/
theorem CaptureFormURL_unreserved (c : Client) (t : GoString)
    (h : ∀ b ∈ t, shouldEscape b = false) :
    c.CaptureFormURL t = c.baseURL ++ lit "/capture_form?session_token=" ++ t := by
  rw [CaptureFormURL_eq, QueryEscape_unreserved t h]

/-- Witness of C7: the URL of `TestCaptureFormURL`. -/
theorem CaptureFormURL_unreserved_witness :
    testClient.CaptureFormURL (lit "st_xyz")
      = lit "https://pci.vaultera.co/api/v1/capture_form?session_token=st_xyz" :=
  CaptureFormURL_unreserved testClient (lit "st_xyz") (unreserved_of_all _ rfl)

theorem do_calls_length (env : Env) (c : Client) (method path : GoString)
    (queryParams : Option Values) (body : Option Payload) :
    (c.do env method path queryParams body).2.length ≤ 1 := by
  by_cases hr : c.reaches env method path queryParams body
  · rw [(do_eq env c method path queryParams body).1 hr]
    simp
  · rw [((do_eq env c method path queryParams body).2 hr).1]
    simp

/-- C8: in each of the five handlers, when the call to the vault client returns an error `e`
(from the transport, from a status of 400 or more, or from decoding), the response is 502
with `e` as its `error` field, unmodified, and the requests handed to the vault are those of
that one client call, at most one: nothing is retried. -/
theorem handlers_map_client_error (env : Env) (h : PaymentHandler) (c : Ctx) (e : GoString) :
    ((h.vaultera.CreateSessionToken env (c.Query (lit "scope") [lit "card"])).1
        = Except.error e →
      h.GetSession env c = ({ status := 502, body := ResponseBody.error e },
        (h.vaultera.CreateSessionToken env (c.Query (lit "scope") [lit "card"])).2) ∧
      (h.GetSession env c).2.length ≤ 1) ∧
    (∀ req, env.bodyParserTokenize c = Except.ok req →
      (h.vaultera.CreateCard env req.Card).1 = Except.error e →
      h.Tokenize env c = ({ status := 502, body := ResponseBody.error e },
        (h.vaultera.CreateCard env req.Card).2) ∧
      (h.Tokenize env c).2.length ≤ 1) ∧
    ((h.vaultera.GetCard env (c.Params (lit "token"))).1 = Except.error e →
      h.GetCard env c = ({ status := 502, body := ResponseBody.error e },
        (h.vaultera.GetCard env (c.Params (lit "token"))).2) ∧
      (h.GetCard env c).2.length ≤ 1) ∧
    ((h.vaultera.DeleteCard env (c.Params (lit "token"))).1 = some e →
      h.DeleteCard env c = ({ status := 502, body := ResponseBody.error e },
        (h.vaultera.DeleteCard env (c.Params (lit "token"))).2) ∧
      (h.DeleteCard env c).2.length ≤ 1) ∧
    (∀ req, env.bodyParserCharge c = Except.ok req → req.CardToken ≠ [] → req.URL ≠ [] →
      (h.vaultera.SendCard env req.CardToken
        { Method := req.Method, URL := req.URL, Headers := req.Headers, Body := req.Body }).1
        = Except.error e →
      h.Charge env c = ({ status := 502, body := ResponseBody.error e },
        (h.vaultera.SendCard env req.CardToken
          { Method := req.Method, URL := req.URL, Headers := req.Headers,
            Body := req.Body }).2) ∧
      (h.Charge env c).2.length ≤ 1) := by
  refine ⟨?_, ?_, ?_, ?_, ?_⟩
  · intro he
    have heq : h.GetSession env c = ({ status := 502, body := ResponseBody.error e },
        (h.vaultera.CreateSessionToken env (c.Query (lit "scope") [lit "card"])).2) := by
      simp only [PaymentHandler.GetSession, he]
    refine ⟨heq, ?_⟩
    rw [heq, CreateSessionToken_calls]
    exact do_calls_length _ _ _ _ _ _
  · intro req hreq he
    have heq : h.Tokenize env c = ({ status := 502, body := ResponseBody.error e },
        (h.vaultera.CreateCard env req.Card).2) := by
      simp only [PaymentHandler.Tokenize, hreq, he]
    refine ⟨heq, ?_⟩
    rw [heq, CreateCard_calls]
    exact do_calls_length _ _ _ _ _ _
  · intro he
    have heq : h.GetCard env c = ({ status := 502, body := ResponseBody.error e },
        (h.vaultera.GetCard env (c.Params (lit "token"))).2) := by
      simp only [PaymentHandler.GetCard, he]
    refine ⟨heq, ?_⟩
    rw [heq, GetCard_calls]
    exact do_calls_length _ _ _ _ _ _
  · intro he
    have heq : h.DeleteCard env c = ({ status := 502, body := ResponseBody.error e },
        (h.vaultera.DeleteCard env (c.Params (lit "token"))).2) := by
      simp only [PaymentHandler.DeleteCard, he]
    refine ⟨heq, ?_⟩
    rw [heq]
    exact do_calls_length _ _ _ _ _ _
  · intro req hreq htok hurl he
    have heq : h.Charge env c = ({ status := 502, body := ResponseBody.error e },
        (h.vaultera.SendCard env req.CardToken
          { Method := req.Method, URL := req.URL, Headers := req.Headers,
            Body := req.Body }).2) := by
      simp only [PaymentHandler.Charge, hreq, htok, hurl, or_self, if_false, he]
    refine ⟨heq, ?_⟩
    rw [heq, SendCard_calls]
    exact do_calls_length _ _ _ _ _ _

/-- Witness of C8: `Tokenize` against a vault that refuses the connection. -/
theorem handlers_map_client_error_witness :
    (NewPaymentHandler testClient).Tokenize downEnv emptyCtx =
      ({ status := 502,
         body := ResponseBody.error (lit "vaultera: http do: connection refused") },
        [testClient.request (lit "POST") (lit "/cards") none (some (Payload.card rawCard))]) :=
  ((handlers_map_client_error downEnv (NewPaymentHandler testClient) emptyCtx
    (lit "vaultera: http do: connection refused")).2.1 { Card := rawCard } rfl rfl).1

theorem do_calls_eq_request (env : Env) (c : Client) (method path : GoString)
    (queryParams : Option Values) (body : Option Payload) (r : Request)
    (hr : r ∈ (c.do env method path queryParams body).2) :
    r = c.request method path queryParams body := by
  by_cases hreach : c.reaches env method path queryParams body
  · rw [(do_eq env c method path queryParams body).1 hreach] at hr
    simpa using hr
  · rw [((do_eq env c method path queryParams body).2 hreach).1] at hr
    cases hr

/-- C9, as stated, fails: the request `GET /v1/session?scope=` carries a scope parameter, whose
value is the empty string, and the scope passed to the vault is `card`, not that value. -/
theorem GetSession_empty_scope_is_card :
    peek emptyScopeCtx.queryArgs (lit "scope") = [] ∧
      ((NewPaymentHandler testClient).GetSession sessionEnv emptyScopeCtx).2
        = [testClient.request (lit "POST") (lit "/session_tokens") none
            (some (Payload.sessionToken { Scope := lit "card" }))] ∧
      ((NewPaymentHandler testClient).GetSession sessionEnv emptyScopeCtx).2
        ≠ [testClient.request (lit "POST") (lit "/session_tokens") none
            (some (Payload.sessionToken { Scope := [] }))] := by
  decide

/-- C9, amended: the scope passed to `CreateSessionToken` is `card` when the request carries
no scope query parameter or an empty one, and the caller's scope value verbatim otherwise,
with no validation; the requests handed to the vault are those of that one call, each with
the body `{session_token: {scope}}`, and on success of the call the handler answers 200 with
the session token the vault returned. -/
theorem GetSession_scope (env : Env) (h : PaymentHandler) (c : Ctx) :
    (peek c.queryArgs (lit "scope") = [] →
      (h.GetSession env c).2 = (h.vaultera.CreateSessionToken env (lit "card")).2 ∧
      (∀ r ∈ (h.GetSession env c).2,
        r.body = some (Payload.sessionToken { Scope := lit "card" })) ∧
      (∀ token, (h.vaultera.CreateSessionToken env (lit "card")).1 = Except.ok token →
        (h.GetSession env c).1 = { status := 200, body := ResponseBody.sessionToken token })) ∧
    (peek c.queryArgs (lit "scope") ≠ [] →
      (h.GetSession env c).2
        = (h.vaultera.CreateSessionToken env (peek c.queryArgs (lit "scope"))).2 ∧
      (∀ r ∈ (h.GetSession env c).2,
        r.body = some (Payload.sessionToken { Scope := peek c.queryArgs (lit "scope") })) ∧
      (∀ token,
        (h.vaultera.CreateSessionToken env (peek c.queryArgs (lit "scope"))).1
          = Except.ok token →
        (h.GetSession env c).1 = { status := 200, body := ResponseBody.sessionToken token })) := by
  have key : ∀ scope : GoString, c.Query (lit "scope") [lit "card"] = scope →
      (h.GetSession env c).2 = (h.vaultera.CreateSessionToken env scope).2 ∧
      (∀ r ∈ (h.GetSession env c).2, r.body = some (Payload.sessionToken { Scope := scope })) ∧
      (∀ token, (h.vaultera.CreateSessionToken env scope).1 = Except.ok token →
        (h.GetSession env c).1 = { status := 200, body := ResponseBody.sessionToken token }) := by
    intro scope hq
    have hcalls : (h.GetSession env c).2 = (h.vaultera.CreateSessionToken env scope).2 := by
      unfold PaymentHandler.GetSession
      dsimp only
      rw [hq]
      split <;> rfl
    refine ⟨hcalls, ?_, ?_⟩
    · intro r hr
      rw [hcalls, CreateSessionToken_calls] at hr
      rw [do_calls_eq_request _ _ _ _ _ _ r hr]
      rfl
    · intro token htok
      simp only [PaymentHandler.GetSession, hq, htok]
  constructor
  · intro hp
    exact key (lit "card") (by simp [Ctx.Query, defaultString, hp])
  · intro hp
    exact key _ (by simp [Ctx.Query, defaultString, hp])

/-- Witness of C9: `GET /v1/session?scope=show_card` against the vault of `TestGetSession`. -/
theorem GetSession_scope_witness :
    ((NewPaymentHandler testClient).GetSession sessionEnv showCardCtx).2
        = [testClient.request (lit "POST") (lit "/session_tokens") none
            (some (Payload.sessionToken { Scope := lit "show_card" }))] ∧
      ((NewPaymentHandler testClient).GetSession sessionEnv showCardCtx).1
        = { status := 200,
            body := ResponseBody.sessionToken { Token := lit "st_test", Scope := lit "card" } } :=
  have h := (GetSession_scope sessionEnv (NewPaymentHandler testClient) showCardCtx).2
    (by decide)
  ⟨h.1.trans (by decide), h.2.2 _ rfl⟩

/-- C10: a `Tokenize` request whose body the parser rejects is answered with 400 "invalid
request body" and no request is handed to the vault; a request whose body decodes leads to
one `CreateCard` call on the decoded card (the requests handed to the vault are those of that
call, at most one, a `POST /cards` carrying the card), and when the call succeeds the answer
is 201 with the masked card it returned. -/
theorem Tokenize_validates_body (env : Env) (h : PaymentHandler) (c : Ctx) :
    (∀ e, env.bodyParserTokenize c = Except.error e →
      h.Tokenize env c =
        ({ status := 400, body := ResponseBody.error (lit "invalid request body") }, [])) ∧
    (∀ req, env.bodyParserTokenize c = Except.ok req →
      (h.Tokenize env c).2 = (h.vaultera.CreateCard env req.Card).2 ∧
      (h.Tokenize env c).2.length ≤ 1 ∧
      (∀ r ∈ (h.Tokenize env c).2,
        r = h.vaultera.request (lit "POST") (lit "/cards") none
          (some (Payload.card req.Card))) ∧
      (∀ card, (h.vaultera.CreateCard env req.Card).1 = Except.ok card →
        (h.Tokenize env c).1 = { status := 201, body := ResponseBody.card card })) := by
  constructor
  · intro e he
    simp only [PaymentHandler.Tokenize, he]
  · intro req hreq
    have hcalls : (h.Tokenize env c).2 = (h.vaultera.CreateCard env req.Card).2 := by
      unfold PaymentHandler.Tokenize
      rw [hreq]
      dsimp only
      split <;> rfl
    refine ⟨hcalls, ?_, ?_, ?_⟩
    · rw [hcalls, CreateCard_calls]
      exact do_calls_length _ _ _ _ _ _
    · intro r hr
      rw [hcalls, CreateCard_calls] at hr
      exact do_calls_eq_request _ _ _ _ _ _ r hr
    · intro card hcard
      simp only [PaymentHandler.Tokenize, hreq, hcard]

/-- Witness of C10: the exchanges of `TestTokenize_BadBody` and of `TestTokenize`. -/
theorem Tokenize_validates_body_witness :
    (NewPaymentHandler testClient).Tokenize (testEnv (Outcome.response 200 [])) emptyCtx =
        ({ status := 400, body := ResponseBody.error (lit "invalid request body") }, []) ∧
      ((NewPaymentHandler testClient).Tokenize tokenizeEnv emptyCtx).1 =
        { status := 201, body := ResponseBody.card maskedCard } :=
  ⟨(Tokenize_validates_body (testEnv (Outcome.response 200 [])) (NewPaymentHandler testClient)
      emptyCtx).1 (lit "Unprocessable Entity") rfl,
    ((Tokenize_validates_body tokenizeEnv (NewPaymentHandler testClient) emptyCtx).2
      { Card := rawCard } rfl).2.2.2 maskedCard rfl⟩

theorem decode_sessionTokenJSON (fold : GoString → GoString → Bool) (t s : GoString) :
    decodeSessionTokenWrapper fold (sessionTokenJSON t s) = some { Token := t, Scope := s } := by
  have h1 : fieldOf fold [lit "session_token"] (lit "session_token")
      = some (lit "session_token") := by
    simp [fieldOf]
  have h2 : fieldOf fold [lit "token", lit "scope"] (lit "token") = some (lit "token") := by
    simp [fieldOf]
  have h3 : fieldOf fold [lit "token", lit "scope"] (lit "scope") = some (lit "scope") := by
    simp [fieldOf]
  have h4 : lit "scope" ≠ lit "token" := by decide
  simp [decodeSessionTokenWrapper, sessionTokenJSON, decodeWrapperMembers,
    decodeSessionTokenResponse, decodeSessionTokenMembers, decodeString, h1, h2, h3, h4]

theorem CreateSessionToken_of_do_ok (env : Env) (c : Client) (scope : GoString)
    (h : (c.do env (lit "POST") (lit "/session_tokens") none
      (some (Payload.sessionToken { Scope := scope }))).1.err = none) :
    (c.CreateSessionToken env scope).1 =
      match env.unmarshalSessionToken (c.do env (lit "POST") (lit "/session_tokens") none
        (some (Payload.sessionToken { Scope := scope }))).1.data with
      | Except.error err =>
        Except.error (lit "vaultera: decode session_token response: " ++ err)
      | Except.ok token => Except.ok token := by
  simp only [Client.CreateSessionToken, h]
  split <;> rfl

/-- C11: whatever scope is requested, when the vault answers the request of
`CreateSessionToken` with a status below 400 and a body that is the JSON text of
`{"session_token":{"token":t,"scope":s}}`, the operation returns the session token with
`Token` `t` and `Scope` `s`, and no error. -/
theorem CreateSessionToken_returns_token (env : Env) (lib : JSONText) (c : Client)
    (scope t s : GoString) (r : Request) (status : Int) (d : GoString)
    (hlib : env.decodesSessionTokens lib)
    (hcall : (c.CreateSessionToken env scope).2 = [r])
    (hresp : env.roundTrip r = Outcome.response status d) (hstatus : status < 400)
    (hbody : lib.parse d = some (sessionTokenJSON t s)) :
    (c.CreateSessionToken env scope).1 = Except.ok { Token := t, Scope := s } := by
  rw [CreateSessionToken_calls] at hcall
  have hdo := (do_of_call env c _ _ _ _ r hcall).2.2
  rw [hresp, classify_ok status d hstatus] at hdo
  have hdec := hlib d _ _ hbody (decode_sessionTokenJSON lib.fold t s)
  rw [CreateSessionToken_of_do_ok env c scope (by rw [hdo]), hdo]
  simp only [hdec]

/-- Witness of C11: the body `{"session_token":{"token":"st_test","scope":"card"}}` sent with
status 200 in answer to `CreateSessionToken("show_card")`. -/
theorem CreateSessionToken_returns_token_witness :
    (testClient.CreateSessionToken (jsonEnv (Outcome.response 200 sessionBody))
        (lit "show_card")).1 = Except.ok { Token := lit "st_test", Scope := lit "card" } :=
  CreateSessionToken_returns_token (jsonEnv (Outcome.response 200 sessionBody)) plainJSON
    testClient (lit "show_card") (lit "st_test") (lit "card")
    (testClient.request (lit "POST") (lit "/session_tokens") none
      (some (Payload.sessionToken { Scope := lit "show_card" })))
    200 sessionBody
    (by
      intro data v token hp hd
      have hp' : parsePlainJSON data = some v := hp
      have hd' : decodeSessionTokenWrapper asciiFold v = some token := hd
      simp only [jsonEnv, hp', hd'])
    (by decide) rfl (by decide) (by rfl)

theorem count_keys_le_one (v : Values) (key : GoString) : (Values.keys v).count key ≤ 1 := by
  induction v with
  | nil => simp [Values.keys]
  | cons e v ih =>
    obtain ⟨k, vs⟩ := e
    rw [Values.keys, List.count_cons]
    by_cases hk : k = key
    · subst hk
      have h0 : ((Values.keys v).filter (fun x => decide (x ≠ k))).count k = 0 :=
        List.count_eq_zero_of_not_mem (by simp [List.mem_filter])
      rw [h0]
      simp
    · have hle : ((Values.keys v).filter (fun x => decide (x ≠ k))).count key
          ≤ (Values.keys v).count key :=
        (List.filter_sublist _).count_le _
      simp only [beq_iff_eq, hk, if_false]
      omega

theorem lookup_of_not_mem_keys (v : Values) (key : GoString) (h : key ∉ Values.keys v) :
    Values.lookup v key = [] := by
  induction v with
  | nil => rfl
  | cons e v ih =>
    obtain ⟨k, vs⟩ := e
    rw [Values.keys, List.mem_cons, not_or] at h
    have hk : k ≠ key := fun e => h.1 e.symm
    have hrest : key ∉ Values.keys v := by
      intro hmem
      exact h.2 (List.mem_filter.mpr ⟨hmem, by simpa using h.1⟩)
    simp [Values.lookup, hk, ih hrest]

theorem mem_sortKeys (key : GoString) (ks : List GoString) : key ∈ sortKeys ks ↔ key ∈ ks := by
  rw [← List.count_pos_iff, ← List.count_pos_iff, count_sortKeys]

/-- Parsing the encoded form of a map gives every key the values it has in the map. -/
theorem lookup_ParseQuery_Encode (v : Values) (key : GoString) :
    Values.lookup (ParseQuery (Values.Encode v)) key = Values.lookup v key := by
  by_cases hlen : v.length = 0
  · have hv : v = [] := List.length_eq_zero.mp hlen
    subst hv
    rfl
  · rw [Values.Encode, if_neg hlen, encodeKeys_eq, ParseQuery_encodePairs, lookup_addAll]
    by_cases hmem : key ∈ Values.keys v
    · have hc : (sortKeys (Values.keys v)).count key = 1 := by
        rw [count_sortKeys]
        have := count_keys_le_one v key
        have := List.count_pos_iff.mpr hmem
        omega
      rw [flatPairs_filter_of_count _ _ _ hc]
      simp [Values.lookup]
    · have hn : key ∉ sortKeys (Values.keys v) := fun h => hmem ((mem_sortKeys _ _).mp h)
      rw [flatPairs_filter_of_not_mem _ _ _ hn, lookup_of_not_mem_keys v key hmem]
      simp [Values.lookup]

theorem lookup_Set_of_ne (v : Values) (k x key : GoString) (h : k ≠ key) :
    Values.lookup (Values.Set v k x) key = Values.lookup v key := by
  have hf : ∀ w : Values, Values.lookup (w.filter (fun p => decide (p.1 ≠ k))) key
      = Values.lookup w key := by
    intro w
    induction w with
    | nil => rfl
    | cons e w ih =>
      obtain ⟨k0, vs⟩ := e
      by_cases h0 : k0 = k
      · subst h0
        simpa [List.filter_cons, Values.lookup, h] using ih
      · by_cases h1 : k0 = key
        · subst h1
          simp [List.filter_cons, Values.lookup, h0]
        · simpa [List.filter_cons, Values.lookup, h0, h1] using ih
  have hf' := hf v
  rw [Values.Set, Values.lookup, if_neg h]
  exact hf'

/-- The query parameters of `Capture` hold each of `method`, `url` and `profile` exactly when
the field is not empty. -/
theorem lookup_captureParams (req : CaptureRequest) :
    Values.lookup (captureParams req) (lit "method")
        = (if req.Method = [] then [] else [req.Method]) ∧
      Values.lookup (captureParams req) (lit "url")
        = (if req.URL = [] then [] else [req.URL]) ∧
      Values.lookup (captureParams req) (lit "profile")
        = (if req.Profile = [] then [] else [req.Profile]) := by
  have h1 : lit "method" ≠ lit "url" := by decide
  have h2 : lit "method" ≠ lit "profile" := by decide
  have h3 : lit "url" ≠ lit "profile" := by decide
  have h4 : lit "url" ≠ lit "method" := by decide
  have h5 : lit "profile" ≠ lit "method" := by decide
  have h6 : lit "profile" ≠ lit "url" := by decide
  unfold captureParams
  by_cases hm : req.Method = [] <;> by_cases hu : req.URL = [] <;>
    by_cases hp : req.Profile = [] <;>
    simp [hm, hu, hp, lookup_Set, lookup_Set_of_ne, h1, h2, h3, h4, h5, h6, Values.lookup]

theorem coerceUTF8_of_valid (k : Nat) (s : GoString) (h : validUTF8 k s = true) :
    coerceUTF8 k s = s := by
  induction s generalizing k with
  | nil => cases k <;> rfl
  | cons b rest ih =>
    cases k with
    | succ k =>
      rw [validUTF8] at h
      rw [coerceUTF8, ih k h]
    | zero =>
      rw [validUTF8] at h
      rw [coerceUTF8]
      cases hw : runeWidth (b :: rest) with
      | zero => simp [hw] at h
      | succ w =>
        simp only [hw] at h
        simp only [ih w h]

/-- The JSON string written for a Go string of valid UTF-8 stands for that string. -/
theorem jsonString_of_valid (s : GoString) (h : ValidString s = true) : jsonString s = s :=
  coerceUTF8_of_valid 0 s h

/-- The members `method`, `url` and `profile` of the JSON body of a capture request. -/
theorem member_CaptureRequest (req : CaptureRequest) :
    JSON.member req.toJSON (lit "method") = some (JSON.string (jsonString req.Method)) ∧
      JSON.member req.toJSON (lit "url") = some (JSON.string (jsonString req.URL)) ∧
      JSON.member req.toJSON (lit "profile")
        = (if req.Profile = [] then none
            else some (JSON.string (jsonString req.Profile))) := by
  have h1 : lit "method" ≠ lit "url" := by decide
  have h2 : lit "method" ≠ lit "profile" := by decide
  have h3 : lit "url" ≠ lit "profile" := by decide
  have h4 : lit "headers" ≠ lit "profile" := by decide
  have h5 : lit "body" ≠ lit "profile" := by decide
  refine ⟨by simp [CaptureRequest.toJSON, JSON.member, memberOf],
    by simp [CaptureRequest.toJSON, JSON.member, memberOf, h1], ?_⟩
  by_cases hh : req.Headers = [] <;> by_cases hb : req.Body = [] <;>
    by_cases hp : req.Profile = [] <;>
    simp [CaptureRequest.toJSON, JSON.member, memberOf, h2, h3, h4, h5, hh, hb, hp]

/-- C12, as stated, fails: for a capture request whose method is the empty string, the JSON
body carries the member `method` (with the empty string), and the query string of the request
that is sent carries no `method` at all. -/
theorem Capture_empty_method_not_mirrored :
    (testClient.Capture (testEnv (Outcome.response 200 [])) emptyMethodCapture).2
        = [testClient.request (lit "POST") (lit "/capture")
            (some (captureParams emptyMethodCapture))
            (some (Payload.capture emptyMethodCapture))] ∧
      JSON.member emptyMethodCapture.toJSON (lit "method") = some (JSON.string []) ∧
      (testClient.request (lit "POST") (lit "/capture")
          (some (captureParams emptyMethodCapture))
          (some (Payload.capture emptyMethodCapture))).rawQuery
        = lit "api_key=test-api-key&url=https%3A%2F%2Fthird.example%2Fcard" ∧
      Values.lookup
        (ParseQuery (testClient.request (lit "POST") (lit "/capture")
          (some (captureParams emptyMethodCapture))
          (some (Payload.capture emptyMethodCapture))).rawQuery) (lit "method") = [] :=
  ⟨by decide, rfl, by decide, by decide⟩

/-- C12, amended: `Capture` hands one request to the vault when the URL parses, the body is
marshalled and the request is built, and none otherwise. That request has the capture request
as its JSON body, and each of `method`, `url` and `profile` whose value is not empty is in
both places: in the query string, as a parameter with the bytes of the field as its one
value, and in the body, as a member with the JSON string that `json.Marshal` writes for the
field, which stands for the same value when the field is valid UTF-8 (in the body
`json.Marshal` replaces invalid UTF-8 by U+FFFD). An empty `method` or `url` is a member of
the body, with the empty string, and is not in the query string; an empty `profile` is in
neither. -/
theorem Capture_mirrors_fields (env : Env) (c : Client) (req : CaptureRequest) :
    (c.reaches env (lit "POST") (lit "/capture") (some (captureParams req))
        (some (Payload.capture req)) →
      (c.Capture env req).2 = [c.request (lit "POST") (lit "/capture") (some (captureParams req))
        (some (Payload.capture req))]) ∧
    (¬ c.reaches env (lit "POST") (lit "/capture") (some (captureParams req))
        (some (Payload.capture req)) →
      (c.Capture env req).2 = []) ∧
    (c.request (lit "POST") (lit "/capture") (some (captureParams req))
        (some (Payload.capture req))).body = some (Payload.capture req) ∧
    JSON.member req.toJSON (lit "method") = some (JSON.string (jsonString req.Method)) ∧
    JSON.member req.toJSON (lit "url") = some (JSON.string (jsonString req.URL)) ∧
    JSON.member req.toJSON (lit "profile")
      = (if req.Profile = [] then none else some (JSON.string (jsonString req.Profile))) ∧
    Values.lookup (ParseQuery (c.request (lit "POST") (lit "/capture") (some (captureParams req))
        (some (Payload.capture req))).rawQuery) (lit "method")
      = (if req.Method = [] then [] else [req.Method]) ∧
    Values.lookup (ParseQuery (c.request (lit "POST") (lit "/capture") (some (captureParams req))
        (some (Payload.capture req))).rawQuery) (lit "url")
      = (if req.URL = [] then [] else [req.URL]) ∧
    Values.lookup (ParseQuery (c.request (lit "POST") (lit "/capture") (some (captureParams req))
        (some (Payload.capture req))).rawQuery) (lit "profile")
      = (if req.Profile = [] then [] else [req.Profile]) ∧
    (ValidString req.Method = true → jsonString req.Method = req.Method) ∧
    (ValidString req.URL = true → jsonString req.URL = req.URL) ∧
    (ValidString req.Profile = true → jsonString req.Profile = req.Profile) := by
  have hq : ∀ key : GoString, lit "api_key" ≠ key →
      Values.lookup (ParseQuery (c.request (lit "POST") (lit "/capture") (some (captureParams req))
        (some (Payload.capture req))).rawQuery) key
        = Values.lookup (captureParams req) key := by
    intro key hkey
    show Values.lookup (ParseQuery (Values.Encode
      (Values.Set (captureParams req) (lit "api_key") c.apiKey))) key = _
    rw [lookup_ParseQuery_Encode, lookup_Set_of_ne _ _ _ _ hkey]
  obtain ⟨m1, m2, m3⟩ := member_CaptureRequest req
  obtain ⟨q1, q2, q3⟩ := lookup_captureParams req
  refine ⟨?_, ?_, rfl, m1, m2, m3, ?_, ?_, ?_, jsonString_of_valid _, jsonString_of_valid _,
    jsonString_of_valid _⟩
  · intro hr
    rw [Capture_of_reaches env c req hr]
  · intro hr
    rw [Capture_calls]
    exact ((do_eq env c _ _ _ _).2 hr).1
  · rw [hq _ (by decide), q1]
  · rw [hq _ (by decide), q2]
  · rw [hq _ (by decide), q3]

/-- Witness of C12: a capture request with a method, a URL and a profile. -/
theorem Capture_mirrors_fields_witness :
    (testClient.Capture (testEnv (Outcome.response 200 [])) fullCapture).2
        = [testClient.request (lit "POST") (lit "/capture") (some (captureParams fullCapture))
            (some (Payload.capture fullCapture))] ∧
      Values.lookup
        (ParseQuery (testClient.request (lit "POST") (lit "/capture")
          (some (captureParams fullCapture)) (some (Payload.capture fullCapture))).rawQuery)
        (lit "url") = [lit "https://third.example/card?a=1&b=2"] ∧
      JSON.member fullCapture.toJSON (lit "url")
        = some (JSON.string (lit "https://third.example/card?a=1&b=2")) :=
  have h := Capture_mirrors_fields (testEnv (Outcome.response 200 [])) testClient fullCapture
  ⟨h.1 ⟨by decide, fun _ _ => rfl, rfl⟩, h.2.2.2.2.2.2.2.1,
    h.2.2.2.2.1.trans (by rw [h.2.2.2.2.2.2.2.2.2.2.1 (by decide)]; rfl)⟩

theorem do_calls_cases (env : Env) (c : Client) (method path : GoString)
    (queryParams : Option Values) (body : Option Payload) :
    (c.reaches env method path queryParams body →
      (c.do env method path queryParams body).2 = [c.request method path queryParams body]) ∧
    (¬ c.reaches env method path queryParams body →
      (c.do env method path queryParams body).2 = []) := by
  constructor
  · intro hr
    rw [(do_eq env c method path queryParams body).1 hr]
  · intro hr
    exact ((do_eq env c method path queryParams body).2 hr).1

/-- C14: a charge request that decodes and whose `card_token` and `url` are not empty
(`method` and `body` may be) is answered from one `SendCard` call on that card token with the
`SendRequest` made of the caller's method, URL, headers and body, unchanged: the response
and the requests handed to the vault are those of that call. There is one request when the
URL parses, the body is marshalled and the request is built, and none otherwise; it is a
`POST`, and its body is that `SendRequest`, so a placeholder in the body reaches the vault as
it came. -/
theorem Charge_delegates_to_SendCard (env : Env) (h : PaymentHandler) (c : Ctx)
    (req : chargeRequest) (hbody : env.bodyParserCharge c = Except.ok req)
    (htoken : req.CardToken ≠ []) (hurl : req.URL ≠ []) :
    h.Charge env c =
        ((match (h.vaultera.SendCard env req.CardToken
            { Method := req.Method, URL := req.URL, Headers := req.Headers,
              Body := req.Body }).1 with
          | Except.error err => { status := 502, body := ResponseBody.error err }
          | Except.ok resp => { status := 200, body := ResponseBody.send resp }),
          (h.vaultera.SendCard env req.CardToken
            { Method := req.Method, URL := req.URL, Headers := req.Headers,
              Body := req.Body }).2) ∧
      (h.vaultera.reaches env (lit "POST") (lit "/cards/" ++ req.CardToken ++ lit "/send") none
          (some (Payload.send
            { Method := req.Method, URL := req.URL, Headers := req.Headers,
              Body := req.Body })) →
        (h.Charge env c).2 =
          [h.vaultera.request (lit "POST") (lit "/cards/" ++ req.CardToken ++ lit "/send") none
            (some (Payload.send
              { Method := req.Method, URL := req.URL, Headers := req.Headers,
                Body := req.Body }))]) ∧
      (¬ h.vaultera.reaches env (lit "POST") (lit "/cards/" ++ req.CardToken ++ lit "/send")
          none (some (Payload.send
            { Method := req.Method, URL := req.URL, Headers := req.Headers,
              Body := req.Body })) →
        (h.Charge env c).2 = []) ∧
      (∀ r ∈ (h.Charge env c).2,
        r.method = lit "POST" ∧
        r.body = some (Payload.send
          { Method := req.Method, URL := req.URL, Headers := req.Headers,
            Body := req.Body })) := by
  have heq : h.Charge env c =
      ((match (h.vaultera.SendCard env req.CardToken
          { Method := req.Method, URL := req.URL, Headers := req.Headers,
            Body := req.Body }).1 with
        | Except.error err => { status := 502, body := ResponseBody.error err }
        | Except.ok resp => { status := 200, body := ResponseBody.send resp }),
        (h.vaultera.SendCard env req.CardToken
          { Method := req.Method, URL := req.URL, Headers := req.Headers,
            Body := req.Body }).2) := by
    simp only [PaymentHandler.Charge, hbody, htoken, hurl, or_self, if_false]
    split <;> simp_all
  refine ⟨heq, ?_, ?_, ?_⟩
  · intro hr
    rw [heq, SendCard_calls]
    exact (do_calls_cases _ _ _ _ _ _).1 hr
  · intro hr
    rw [heq, SendCard_calls]
    exact (do_calls_cases _ _ _ _ _ _).2 hr
  · intro r hr
    rw [heq, SendCard_calls] at hr
    rw [do_calls_eq_request _ _ _ _ _ _ r hr]
    exact ⟨rfl, rfl⟩

/-- Witness of C14: the charge of `TestSendCard`, with `%CARD_NUMBER%` in its body. -/
theorem Charge_delegates_to_SendCard_witness :
    ((NewPaymentHandler testClient).Charge chargeEnv emptyCtx).2
        = [testClient.request (lit "POST") (lit "/cards/tok_abc123/send") none
            (some (Payload.send
              { Method := lit "POST", URL := lit "https://api.stripe.com/v1/charges",
                Headers := [], Body := placeholderCharge.Body }))] ∧
      ((NewPaymentHandler testClient).Charge chargeEnv emptyCtx).1
        = { status := 200,
            body := ResponseBody.send { StatusCode := 200, Headers := [], Body := [] } } :=
  have h := (Charge_delegates_to_SendCard chargeEnv (NewPaymentHandler testClient) emptyCtx
    placeholderCharge rfl (by decide) (by decide)).1
  ⟨(congrArg Prod.snd h).trans (by decide), (congrArg Prod.fst h).trans rfl⟩

theorem CreateCard_of_call (env : Env) (c : Client) (card : Card) (r : Request)
    (hcall : (c.CreateCard env card).2 = [r]) :
    (c.CreateCard env card).1 =
      match (classify (env.roundTrip r)).err with
      | some err => Except.error err
      | none =>
        match env.unmarshalCard (classify (env.roundTrip r)).data with
        | Except.error err => Except.error (lit "vaultera: decode card response: " ++ err)
        | Except.ok v => Except.ok v := by
  rw [CreateCard_calls] at hcall
  have hdo := (do_of_call env c _ _ _ _ r hcall).2.2
  simp only [Client.CreateCard, hdo]
  cases (classify (env.roundTrip r)).err with
  | some e => rfl
  | none =>
    dsimp only
    cases env.unmarshalCard (classify (env.roundTrip r)).data <;> rfl

/-- Once `Tokenize` has handed its request to the vault, its response is a function of what
came back. -/
theorem Tokenize_of_call (env : Env) (h : PaymentHandler) (c : Ctx) (req : tokenizeRequest)
    (r : Request) (hbody : env.bodyParserTokenize c = Except.ok req)
    (hcall : (h.Tokenize env c).2 = [r]) :
    (h.Tokenize env c).1 = tokenizeOutcome env (env.roundTrip r) := by
  have hcalls : (h.Tokenize env c).2 = (h.vaultera.CreateCard env req.Card).2 := by
    unfold PaymentHandler.Tokenize
    rw [hbody]
    dsimp only
    split <;> rfl
  rw [hcalls] at hcall
  have hc := CreateCard_of_call env h.vaultera req.Card r hcall
  simp only [PaymentHandler.Tokenize, hbody, hc, tokenizeOutcome]
  cases (classify (env.roundTrip r)).err with
  | some e => rfl
  | none =>
    dsimp only
    cases env.unmarshalCard (classify (env.roundTrip r)).data <;> rfl

/-- C15, as stated, fails: when the vault rejects the card with a 422 whose body repeats the
submitted number, the 502 message of `Tokenize` ends in that number; and when the vault
answers 200 with a card whose mask is the whole number, the 201 card carries it. -/
theorem Tokenize_relays_raw_number :
    ((NewPaymentHandler testClient).Tokenize echoEnv emptyCtx).1
        = { status := 502,
            body := ResponseBody.error (lit "vaultera: API error 422: " ++ rawCard.CardNumber) } ∧
      ((NewPaymentHandler testClient).Tokenize unmaskedEnv emptyCtx).1
        = { status := 201,
            body := ResponseBody.card
              { maskedCard with CardNumberMask := rawCard.CardNumber } } := by
  decide

/-- C15, amended: for every raw card submitted to `Tokenize` and every behaviour of the
vault, once the request is with the vault the caller-visible outcome is what the answer of
the vault makes it, and this system copies nothing of the submitted card into it: a 201
carries the card that the body of the vault decodes into, its number field included, as it
is; and for a status of 400 or more the 502 message is `vaultera: API error <s>: <body>` with
the body of the vault as it is. The outcome holds no more of the card number than the answer
of the vault does. -/
theorem Tokenize_outcome_from_vault (env : Env) (h : PaymentHandler) (c : Ctx)
    (req : tokenizeRequest) (r : Request)
    (hbody : env.bodyParserTokenize c = Except.ok req)
    (hcall : (h.Tokenize env c).2 = [r]) :
    (h.Tokenize env c).1 = tokenizeOutcome env (env.roundTrip r) ∧
      (∀ m, (h.Tokenize env c).1 = { status := 201, body := ResponseBody.card m } →
        ∃ s d, env.roundTrip r = Outcome.response s d ∧ s < 400 ∧
          env.unmarshalCard d = Except.ok m) ∧
      (∀ s d, env.roundTrip r = Outcome.response s d → 400 ≤ s →
        (h.Tokenize env c).1 =
          { status := 502,
            body := ResponseBody.error
              (lit "vaultera: API error " ++ fmtInt s ++ lit ": " ++ d) }) := by
  have hout := Tokenize_of_call env h c req r hbody hcall
  refine ⟨hout, ?_, ?_⟩
  · intro m hm
    rw [hout] at hm
    cases ho : env.roundTrip r with
    | doError e => simp [ho, tokenizeOutcome, classify] at hm
    | readError s e => simp [ho, tokenizeOutcome, classify] at hm
    | response s d =>
      by_cases hs : 400 ≤ s
      · simp [ho, tokenizeOutcome, classify, hs] at hm
      · refine ⟨s, d, rfl, by omega, ?_⟩
        simp only [ho, tokenizeOutcome, classify, ge_iff_le, hs, if_false] at hm
        cases hu : env.unmarshalCard d with
        | error e => simp [hu] at hm
        | ok v =>
          simp only [hu, Response.mk.injEq, ResponseBody.card.injEq, true_and] at hm
          rw [hm]
  · intro s d ho hs
    rw [hout, ho]
    simp [tokenizeOutcome, classify, hs]

/-- Witness of C15: the exchange of `TestTokenize`. -/
theorem Tokenize_outcome_from_vault_witness :
    ((NewPaymentHandler testClient).Tokenize tokenizeEnv emptyCtx).1
      = { status := 201, body := ResponseBody.card maskedCard } :=
  (Tokenize_outcome_from_vault tokenizeEnv (NewPaymentHandler testClient) emptyCtx
    { Card := rawCard }
    (testClient.request (lit "POST") (lit "/cards") none (some (Payload.card rawCard)))
    rfl (by decide)).1.trans rfl

/-- C17: `Tokenize` does not let the card it is given flow into its outcome: for two inbound
requests that decode into any two cards and whose vault calls come back with the same
outcome (the same transport error, or the same status and body), the status code and the
body of the two responses are identical. -/
theorem Tokenize_noninterference (env : Env) (h : PaymentHandler) (c1 c2 : Ctx)
    (req1 req2 : tokenizeRequest) (r1 r2 : Request)
    (hbody1 : env.bodyParserTokenize c1 = Except.ok req1)
    (hbody2 : env.bodyParserTokenize c2 = Except.ok req2)
    (hcall1 : (h.Tokenize env c1).2 = [r1]) (hcall2 : (h.Tokenize env c2).2 = [r2])
    (hsame : env.roundTrip r1 = env.roundTrip r2) :
    (h.Tokenize env c1).1 = (h.Tokenize env c2).1 := by
  rw [Tokenize_of_call env h c1 req1 r1 hbody1 hcall1,
    Tokenize_of_call env h c2 req2 r2 hbody2 hcall2, hsame]

/-- Witness of C17: two different cards, one vault answer, one response. -/
theorem Tokenize_noninterference_witness :
    rawCard ≠ otherCard ∧
      ((NewPaymentHandler testClient).Tokenize twoCardsEnv emptyCtx).1
        = ((NewPaymentHandler testClient).Tokenize twoCardsEnv otherCtx).1 :=
  ⟨by decide,
    Tokenize_noninterference twoCardsEnv (NewPaymentHandler testClient) emptyCtx otherCtx
      { Card := rawCard } { Card := otherCard }
      (testClient.request (lit "POST") (lit "/cards") none (some (Payload.card rawCard)))
      (testClient.request (lit "POST") (lit "/cards") none (some (Payload.card otherCard)))
      rfl rfl (by decide) (by decide) rfl⟩

theorem GetCard_of_call (env : Env) (c : Client) (t : GoString) (r : Request)
    (hcall : (c.GetCard env t).2 = [r]) :
    (c.GetCard env t).1 =
      match (classify (env.roundTrip r)).err with
      | some err => Except.error err
      | none =>
        match env.unmarshalCard (classify (env.roundTrip r)).data with
        | Except.error err => Except.error (lit "vaultera: decode card response: " ++ err)
        | Except.ok v => Except.ok v := by
  rw [GetCard_calls] at hcall
  have hdo := (do_of_call env c _ _ _ _ r hcall).2.2
  simp only [Client.GetCard, hdo]
  cases (classify (env.roundTrip r)).err with
  | some e => rfl
  | none =>
    dsimp only
    cases env.unmarshalCard (classify (env.roundTrip r)).data <;> rfl

theorem SendCard_of_call (env : Env) (c : Client) (t : GoString) (req : SendRequest) (r : Request)
    (hcall : (c.SendCard env t req).2 = [r]) :
    (c.SendCard env t req).1 =
      match (classify (env.roundTrip r)).err with
      | some err => Except.error err
      | none =>
        match env.unmarshalSend (classify (env.roundTrip r)).data with
        | Except.error err => Except.error (lit "vaultera: decode send response: " ++ err)
        | Except.ok v => Except.ok v := by
  rw [SendCard_calls] at hcall
  have hdo := (do_of_call env c _ _ _ _ r hcall).2.2
  simp only [Client.SendCard, hdo]
  cases (classify (env.roundTrip r)).err with
  | some e => rfl
  | none =>
    dsimp only
    cases env.unmarshalSend (classify (env.roundTrip r)).data <;> rfl

theorem Capture_of_call (env : Env) (c : Client) (req : CaptureRequest) (r : Request)
    (hcall : (c.Capture env req).2 = [r]) :
    (c.Capture env req).1 =
      match (classify (env.roundTrip r)).err with
      | some err => Except.error err
      | none =>
        match env.unmarshalCapture (classify (env.roundTrip r)).data with
        | Except.error err => Except.error (lit "vaultera: decode capture response: " ++ err)
        | Except.ok v => Except.ok v := by
  rw [Capture_calls] at hcall
  have hdo := (do_of_call env c _ _ _ _ r hcall).2.2
  simp only [Client.Capture, hdo]
  cases (classify (env.roundTrip r)).err with
  | some e => rfl
  | none =>
    dsimp only
    cases env.unmarshalCapture (classify (env.roundTrip r)).data <;> rfl

theorem CreateSessionToken_of_call (env : Env) (c : Client) (scope : GoString) (r : Request)
    (hcall : (c.CreateSessionToken env scope).2 = [r]) :
    (c.CreateSessionToken env scope).1 =
      match (classify (env.roundTrip r)).err with
      | some err => Except.error err
      | none =>
        match env.unmarshalSessionToken (classify (env.roundTrip r)).data with
        | Except.error err => Except.error (lit "vaultera: decode session_token response: " ++ err)
        | Except.ok v => Except.ok v := by
  rw [CreateSessionToken_calls] at hcall
  have hdo := (do_of_call env c _ _ _ _ r hcall).2.2
  simp only [Client.CreateSessionToken, hdo]
  cases (classify (env.roundTrip r)).err with
  | some e => rfl
  | none =>
    dsimp only
    cases env.unmarshalSessionToken (classify (env.roundTrip r)).data <;> rfl

theorem DeleteCard_ignores_decoders (env env2 : Env) (c : Client) (t : GoString)
    (hq : env2.quote = env.quote) (hu : env2.urlParseRest = env.urlParseRest)
    (hn : env2.newRequest = env.newRequest) (hr : env2.roundTrip = env.roundTrip) :
    c.DeleteCard env2 t = c.DeleteCard env t := by
  simp only [Client.DeleteCard, Client.do, urlParse, hq, hu, hn, hr]

/-- C16: when the vault answers the request of the operation with a status below 400 and a
body that `json.Unmarshal` rejects, each of `CreateCard`, `GetCard`, `SendCard`, `Capture`
and `CreateSessionToken` returns a decoding error and no value, and the handlers `Tokenize`,
`GetCard`, `Charge` and `GetSession` built on them answer 502; `DeleteCard` alone decodes
nothing: on the same answer it returns success, and its result is the same under any
decoders. -/
theorem undecodable_body_is_error (env : Env) (h : PaymentHandler) (s : Int) (d e : GoString)
    (hs : s < 400) :
    (∀ (card : Card),
      h.vaultera.reaches env (lit "POST") (lit "/cards") none
        (some (Payload.card card)) →
      env.roundTrip (h.vaultera.request (lit "POST") (lit "/cards") none
        (some (Payload.card card))) = Outcome.response s d →
      env.unmarshalCard d = Except.error e →
      h.vaultera.CreateCard env card =
        (Except.error (lit "vaultera: decode card response: " ++ e),
          [h.vaultera.request (lit "POST") (lit "/cards") none
            (some (Payload.card card))])) ∧
    (∀ (t : GoString),
      h.vaultera.reaches env (lit "GET") (lit "/cards/" ++ t) none
        none →
      env.roundTrip (h.vaultera.request (lit "GET") (lit "/cards/" ++ t) none
        none) = Outcome.response s d →
      env.unmarshalCard d = Except.error e →
      h.vaultera.GetCard env t =
        (Except.error (lit "vaultera: decode card response: " ++ e),
          [h.vaultera.request (lit "GET") (lit "/cards/" ++ t) none
            none])) ∧
    (∀ (t : GoString) (req : SendRequest),
      h.vaultera.reaches env (lit "POST") (lit "/cards/" ++ t ++ lit "/send") none
        (some (Payload.send req)) →
      env.roundTrip (h.vaultera.request (lit "POST") (lit "/cards/" ++ t ++ lit "/send") none
        (some (Payload.send req))) = Outcome.response s d →
      env.unmarshalSend d = Except.error e →
      h.vaultera.SendCard env t req =
        (Except.error (lit "vaultera: decode send response: " ++ e),
          [h.vaultera.request (lit "POST") (lit "/cards/" ++ t ++ lit "/send") none
            (some (Payload.send req))])) ∧
    (∀ (req : CaptureRequest),
      h.vaultera.reaches env (lit "POST") (lit "/capture") (some (captureParams req))
        (some (Payload.capture req)) →
      env.roundTrip (h.vaultera.request (lit "POST") (lit "/capture") (some (captureParams req))
        (some (Payload.capture req))) = Outcome.response s d →
      env.unmarshalCapture d = Except.error e →
      h.vaultera.Capture env req =
        (Except.error (lit "vaultera: decode capture response: " ++ e),
          [h.vaultera.request (lit "POST") (lit "/capture") (some (captureParams req))
            (some (Payload.capture req))])) ∧
    (∀ (scope : GoString),
      h.vaultera.reaches env (lit "POST") (lit "/session_tokens") none
        (some (Payload.sessionToken { Scope := scope })) →
      env.roundTrip (h.vaultera.request (lit "POST") (lit "/session_tokens") none
        (some (Payload.sessionToken { Scope := scope }))) = Outcome.response s d →
      env.unmarshalSessionToken d = Except.error e →
      h.vaultera.CreateSessionToken env scope =
        (Except.error (lit "vaultera: decode session_token response: " ++ e),
          [h.vaultera.request (lit "POST") (lit "/session_tokens") none
            (some (Payload.sessionToken { Scope := scope }))])) ∧
    (∀ (c : Ctx) (req : tokenizeRequest),
      env.bodyParserTokenize c = Except.ok req →
      h.vaultera.reaches env (lit "POST") (lit "/cards") none
        (some (Payload.card req.Card)) →
      env.roundTrip (h.vaultera.request (lit "POST") (lit "/cards") none
        (some (Payload.card req.Card))) = Outcome.response s d →
      env.unmarshalCard d = Except.error e →
      h.Tokenize env c =
        ({ status := 502,
           body := ResponseBody.error (lit "vaultera: decode card response: " ++ e) },
          [h.vaultera.request (lit "POST") (lit "/cards") none
            (some (Payload.card req.Card))])) ∧
    (∀ (c : Ctx),
      h.vaultera.reaches env (lit "GET") (lit "/cards/" ++ c.Params (lit "token")) none
        none →
      env.roundTrip (h.vaultera.request (lit "GET") (lit "/cards/" ++ c.Params (lit "token")) none
        none) = Outcome.response s d →
      env.unmarshalCard d = Except.error e →
      h.GetCard env c =
        ({ status := 502,
           body := ResponseBody.error (lit "vaultera: decode card response: " ++ e) },
          [h.vaultera.request (lit "GET") (lit "/cards/" ++ c.Params (lit "token")) none
            none])) ∧
    (∀ (c : Ctx) (req : chargeRequest),
      env.bodyParserCharge c = Except.ok req → req.CardToken ≠ [] → req.URL ≠ [] →
      h.vaultera.reaches env (lit "POST") (lit "/cards/" ++ req.CardToken ++ lit "/send") none
        (some (Payload.send
          { Method := req.Method, URL := req.URL, Headers := req.Headers, Body := req.Body })) →
      env.roundTrip (h.vaultera.request (lit "POST")
        (lit "/cards/" ++ req.CardToken ++ lit "/send") none
        (some (Payload.send
          { Method := req.Method, URL := req.URL, Headers := req.Headers, Body := req.Body })))
        = Outcome.response s d →
      env.unmarshalSend d = Except.error e →
      h.Charge env c =
        ({ status := 502,
           body := ResponseBody.error (lit "vaultera: decode send response: " ++ e) },
          [h.vaultera.request (lit "POST") (lit "/cards/" ++ req.CardToken ++ lit "/send") none
            (some (Payload.send
          { Method := req.Method, URL := req.URL, Headers := req.Headers, Body := req.Body }))])) ∧
    (∀ (c : Ctx),
      h.vaultera.reaches env (lit "POST") (lit "/session_tokens") none
        (some (Payload.sessionToken { Scope := c.Query (lit "scope") [lit "card"] })) →
      env.roundTrip (h.vaultera.request (lit "POST") (lit "/session_tokens") none
        (some (Payload.sessionToken { Scope := c.Query (lit "scope") [lit "card"] })))
        = Outcome.response s d →
      env.unmarshalSessionToken d = Except.error e →
      h.GetSession env c =
        ({ status := 502,
           body := ResponseBody.error (lit "vaultera: decode session_token response: " ++ e) },
          [h.vaultera.request (lit "POST") (lit "/session_tokens") none
            (some (Payload.sessionToken { Scope := c.Query (lit "scope") [lit "card"] }))])) ∧
    (∀ (t : GoString),
      h.vaultera.reaches env (lit "DELETE") (lit "/cards/" ++ t) none none →
      env.roundTrip (h.vaultera.request (lit "DELETE") (lit "/cards/" ++ t) none none)
        = Outcome.response s d →
      h.vaultera.DeleteCard env t =
        (none, [h.vaultera.request (lit "DELETE") (lit "/cards/" ++ t) none none])) ∧
    (∀ (env2 : Env) (t : GoString), env2.quote = env.quote →
      env2.urlParseRest = env.urlParseRest →
      env2.newRequest = env.newRequest → env2.roundTrip = env.roundTrip →
      h.vaultera.DeleteCard env2 t = h.vaultera.DeleteCard env t) := by
  refine ⟨?_, ?_, ?_, ?_, ?_, ?_, ?_, ?_, ?_, ?_, ?_⟩
  · intro card hr hresp hdec
    rw [CreateCard_of_reaches env _ card hr, hresp, classify_ok s d hs]
    simp only [hdec]
  · intro t hr hresp hdec
    rw [GetCard_of_reaches env _ t hr, hresp, classify_ok s d hs]
    simp only [hdec]
  · intro t req hr hresp hdec
    rw [SendCard_of_reaches env _ t req hr, hresp, classify_ok s d hs]
    simp only [hdec]
  · intro req hr hresp hdec
    rw [Capture_of_reaches env _ req hr, hresp, classify_ok s d hs]
    simp only [hdec]
  · intro scope hr hresp hdec
    rw [CreateSessionToken_of_reaches env _ scope hr, hresp, classify_ok s d hs]
    simp only [hdec]
  · intro c req hbody hr hresp hdec
    have hop := CreateCard_of_reaches env h.vaultera req.Card hr
    rw [hresp, classify_ok s d hs] at hop
    simp only [hdec] at hop
    simp only [PaymentHandler.Tokenize, hbody, hop]
  · intro c hr hresp hdec
    have hop := GetCard_of_reaches env h.vaultera (c.Params (lit "token")) hr
    rw [hresp, classify_ok s d hs] at hop
    simp only [hdec] at hop
    simp only [PaymentHandler.GetCard, hop]
  · intro c req hbody htoken hurl hr hresp hdec
    have hop := SendCard_of_reaches env h.vaultera req.CardToken
      { Method := req.Method, URL := req.URL, Headers := req.Headers, Body := req.Body } hr
    rw [hresp, classify_ok s d hs] at hop
    simp only [hdec] at hop
    simp only [PaymentHandler.Charge, hbody, htoken, hurl, or_self, if_false, hop]
  · intro c hr hresp hdec
    have hop := CreateSessionToken_of_reaches env h.vaultera
      (c.Query (lit "scope") [lit "card"]) hr
    rw [hresp, classify_ok s d hs] at hop
    simp only [hdec] at hop
    simp only [PaymentHandler.GetSession, hop]
  · intro t hr hresp
    rw [DeleteCard_of_reaches env _ t hr, hresp, classify_ok s d hs]
  · intro env2 t hq hu hn hr
    exact DeleteCard_ignores_decoders env env2 _ t hq hu hn hr

/-- Witness of C16: `CreateSessionToken` against a vault that answers 200 with the body
`not-json`. -/
theorem undecodable_body_is_error_witness :
    testClient.CreateSessionToken (jsonEnv (Outcome.response 200 (lit "not-json")))
        (lit "card")
      = (Except.error (lit "vaultera: decode session_token response: invalid character"),
          [testClient.request (lit "POST") (lit "/session_tokens") none
            (some (Payload.sessionToken { Scope := lit "card" }))]) :=
  (undecodable_body_is_error (jsonEnv (Outcome.response 200 (lit "not-json")))
    (NewPaymentHandler testClient) 200 (lit "not-json") (lit "invalid character")
    (by decide)).2.2.2.2.1 (lit "card") ⟨by decide, fun _ _ => rfl, rfl⟩ rfl rfl

/-- C18: for every base URL and every session token, whatever bytes it holds,
`CaptureFormURL` is the base URL, `/capture_form?` and the one pair
`session_token=<escaped token>`: the escaped token holds no `&`, `=` or `#`, the pair parses
back to the key `session_token` with the token as its only value, unescaping the escaped
token gives the token, and a token of unreserved characters only is its own escaped form. -/
theorem CaptureFormURL_escaped (c : Client) (t : GoString) :
    c.CaptureFormURL t
        = c.baseURL ++ lit "/capture_form?" ++ (lit "session_token=" ++ QueryEscape t) ∧
      c.CaptureFormURL t = c.baseURL ++ lit "/capture_form?session_token=" ++ QueryEscape t ∧
      (∀ b ∈ QueryEscape t, b ≠ 38 ∧ b ≠ 61 ∧ b ≠ 35) ∧
      ParseQuery (lit "session_token=" ++ QueryEscape t) = [(lit "session_token", [t])] ∧
      QueryUnescape (QueryEscape t) = some t ∧
      ((∀ b ∈ t, shouldEscape b = false) → QueryEscape t = t) := by
  have hk : lit "session_token=" = QueryEscape (lit "session_token") ++ [(61 : Byte)] := by
    decide
  have hurl := CaptureFormURL_eq c t
  refine ⟨?_, hurl, ?_, ?_, QueryUnescape_QueryEscape t, QueryEscape_unreserved t⟩
  · rw [hurl, List.append_assoc, List.append_assoc]
    rfl
  · intro b hb
    have := QueryEscape_plain t b hb
    simp [isDelim] at this
    exact ⟨this.1.1.1, this.1.1.2, this.2⟩
  · have hp := ParseQuery_encodePairs [(lit "session_token", t)]
    rw [encodePairs_nil_cons] at hp
    simp only [pairText, tailText, List.append_nil] at hp
    rw [hk, hp]
    rfl

/-- Witness of C18: a token of unreserved characters, and the URL for a token that holds
`&`, `=`, `#`, `+`, `%`, a space and the byte `0xE9`. -/
theorem CaptureFormURL_escaped_witness :
    QueryEscape (lit "st_xyz-1.2~") = lit "st_xyz-1.2~" ∧
      testClient.CaptureFormURL (lit "a&b=c#d+e%f g" ++ [(233 : Byte)])
        = lit ("https://pci.vaultera.co/api/v1/capture_form?session_token="
            ++ "a%26b%3Dc%23d%2Be%25f+g%E9") :=
  ⟨(CaptureFormURL_escaped testClient (lit "st_xyz-1.2~")).2.2.2.2.2
      (unreserved_of_all _ rfl),
    (CaptureFormURL_escaped testClient (lit "a&b=c#d+e%f g" ++ [(233 : Byte)])).2.1.trans
      (by decide)⟩

end Vaultera
